import Mathlib

/-!
Verification of the variable-transformation and template-selection engine of
the Trademarks-Questionnaire repository (`src/lib/document-generator.ts`).

The TypeScript source is shallowly embedded below.  Modelling conventions:

* JavaScript numbers are modelled by `JNum`: an exact rational together with
  the three non-finite values `NaN`, `Infinity`, `-Infinity`.  Double rounding
  is not modelled; all arithmetic is exact over `ℚ`.  `Number.prototype.toString`
  is modelled as the exact decimal expansion (truncated at 17 fractional
  digits when the expansion does not terminate, and never using exponent
  notation); for every value appearing in the theorems below the expansion is
  exact and agrees with JavaScript.
* Strings are Lean `String`s / `List Char`; `toLowerCase`/`toUpperCase` are
  modelled on the ASCII range (`Char.toLower`/`Char.toUpper`), which agrees
  with JavaScript on all ASCII data.
* JavaScript objects (`Record<string, …>`) are modelled as association lists
  written by `setKey` (update-or-append, preserving insertion order) and read
  by `getKey` (first match); this matches JavaScript property lookup.
* `while` loops that the source performs on strings are modelled with an
  explicit fuel parameter; `none` marks the (unreachable in the claims) case
  where the source would loop forever.
-/

namespace DocGen

/-- An exact rational as an unreduced fraction (kept unreduced so that the
kernel can evaluate all arithmetic); every value built below has a nonzero
denominator.  Structural equality is representation equality — the numeric
comparisons are `Frac.feq` / `Frac.flt`. -/
structure Frac where
  num : Int
  den : Int
deriving DecidableEq, Repr

instance (n : Nat) : OfNat Frac n := ⟨⟨n, 1⟩⟩

namespace Frac

/-- Flips signs so the denominator is positive. -/
def norm (f : Frac) : Frac := if f.den < 0 then ⟨-f.num, -f.den⟩ else f

/-- Numeric equality of fractions. -/
def feq (a b : Frac) : Bool := a.num * b.den = b.num * a.den

/-- Numeric strict order of fractions. -/
def flt (a b : Frac) : Bool :=
  (norm a).num * (norm b).den < (norm b).num * (norm a).den

/-- Strictly positive. -/
def pos (f : Frac) : Bool := flt 0 f

/-- Strictly negative. -/
def fneg (f : Frac) : Bool := flt f 0

/-- Negation. -/
def neg (f : Frac) : Frac := ⟨-f.num, f.den⟩

/-- Addition. -/
def add (a b : Frac) : Frac := ⟨a.num * b.den + b.num * a.den, a.den * b.den⟩

/-- Multiplication. -/
def mul (a b : Frac) : Frac := ⟨a.num * b.num, a.den * b.den⟩

/-- Division (callers guard against a numerically zero divisor). -/
def div (a b : Frac) : Frac := ⟨a.num * b.den, a.den * b.num⟩

/-- The rational value of a fraction (the semantic reading used to relate
the model to `ℚ`). -/
def toRat (f : Frac) : ℚ := (f.num : ℚ) / (f.den : ℚ)

end Frac

/-- JavaScript number: `NaN`, `Infinity`, `-Infinity`, or a finite value
(an exact rational). -/
inductive JNum where
  | nan
  | pinf
  | ninf
  | fin (q : Frac)
deriving DecidableEq, Repr

namespace JNum

/-- Unary minus. -/
def neg : JNum → JNum
  | nan => nan
  | pinf => ninf
  | ninf => pinf
  | fin q => fin q.neg

/-- IEEE-style addition. -/
def add : JNum → JNum → JNum
  | nan, _ => nan
  | _, nan => nan
  | pinf, ninf => nan
  | ninf, pinf => nan
  | pinf, _ => pinf
  | _, pinf => pinf
  | ninf, _ => ninf
  | _, ninf => ninf
  | fin a, fin b => fin (a.add b)

/-- IEEE-style subtraction (`a - b = a + (-b)`). -/
def sub (a b : JNum) : JNum := add a (neg b)

/-- IEEE-style multiplication. -/
def mul : JNum → JNum → JNum
  | nan, _ => nan
  | _, nan => nan
  | pinf, pinf => pinf
  | pinf, ninf => ninf
  | ninf, pinf => ninf
  | ninf, ninf => pinf
  | pinf, fin q => if q.pos then pinf else if q.fneg then ninf else nan
  | ninf, fin q => if q.pos then ninf else if q.fneg then pinf else nan
  | fin q, pinf => if q.pos then pinf else if q.fneg then ninf else nan
  | fin q, ninf => if q.pos then ninf else if q.fneg then pinf else nan
  | fin a, fin b => fin (a.mul b)

/-- IEEE-style division (signed zero is not modelled; division of a nonzero
finite value by zero yields the infinity of the numerator's sign, `0/0 = NaN`). -/
def div : JNum → JNum → JNum
  | nan, _ => nan
  | _, nan => nan
  | pinf, pinf => nan
  | pinf, ninf => nan
  | ninf, pinf => nan
  | ninf, ninf => nan
  | pinf, fin q => if q.fneg then ninf else pinf
  | ninf, fin q => if q.fneg then pinf else ninf
  | fin _, pinf => fin 0
  | fin _, ninf => fin 0
  | fin a, fin b =>
    if b.feq 0 then (if a.feq 0 then nan else if a.pos then pinf else ninf)
    else fin (a.div b)

/-- `isNaN`. -/
def isNaNB : JNum → Bool
  | nan => true
  | _ => false

/-- JavaScript `===` on numbers (`NaN` unequal to everything). -/
def eqB : JNum → JNum → Bool
  | nan, _ => false
  | _, nan => false
  | pinf, pinf => true
  | ninf, ninf => true
  | fin a, fin b => a.feq b
  | _, _ => false

/-- JavaScript `<` on numbers. -/
def ltB : JNum → JNum → Bool
  | nan, _ => false
  | _, nan => false
  | ninf, ninf => false
  | ninf, _ => true
  | fin _, pinf => true
  | fin a, fin b => a.flt b
  | _, _ => false

/-- JavaScript `<=` on numbers. -/
def leB (a b : JNum) : Bool := ltB a b || eqB a b

end JNum

/-! ### Character and string helpers -/

/-- The whitespace characters recognised by the model (the ASCII whitespace
JavaScript treats as such). -/
def jsWhite (c : Char) : Bool := c = ' ' || c = '\t' || c = '\n' || c = '\r'

/-- ASCII lower-casing of a string (`String.toLowerCase`). -/
def lowerStr (s : String) : String := ⟨s.data.map Char.toLower⟩

/-- ASCII upper-casing of a string (`String.toUpperCase`). -/
def upperStr (s : String) : String := ⟨s.data.map Char.toUpper⟩

/-- `s.charAt(0).toUpperCase() + s.slice(1)`. -/
def capFirst (s : String) : String :=
  match s.data with
  | [] => ""
  | c :: rest => ⟨Char.toUpper c :: rest⟩

/-- `s.charAt(0).toLowerCase() + s.slice(1)`. -/
def uncapFirst (s : String) : String :=
  match s.data with
  | [] => ""
  | c :: rest => ⟨Char.toLower c :: rest⟩

/-- `String.prototype.trim` (over the modelled whitespace set). -/
def trimStr (s : String) : String :=
  ⟨(s.data.dropWhile jsWhite).reverse.dropWhile jsWhite |>.reverse⟩

/-- Value of a decimal digit list (most significant first). -/
def digitsVal (ds : List Char) : Nat :=
  ds.foldl (fun n c => 10 * n + (c.toNat - 48)) 0

/-! ### `parseFloat` / `parseInt` -/

/-- Splits a leading run of decimal digits off a character list. -/
def spanDigits (cs : List Char) : List Char × List Char :=
  (cs.takeWhile Char.isDigit, cs.dropWhile Char.isDigit)

/-- Parses the optional exponent part `[eE][+-]?digits`; returns the exponent
(0 when absent or malformed, in which case the suffix is not consumed). -/
def parseExponent (cs : List Char) : Int :=
  match cs with
  | 'e' :: rest | 'E' :: rest =>
    let (sgn, rest') : Int × List Char :=
      match rest with
      | '-' :: r => (-1, r)
      | '+' :: r => (1, r)
      | _ => (1, rest)
    let (ds, _) := spanDigits rest'
    if ds = [] then 0 else sgn * (digitsVal ds : Int)
  | _ => 0

/-- JavaScript `parseFloat`: skip leading whitespace, optional sign, then the
longest valid prefix `digits[.digits][exponent]` or `Infinity`; `NaN` when no
prefix parses. -/
def jsParseFloat (s : String) : JNum :=
  let cs := s.data.dropWhile jsWhite
  let (sgn, cs) : Int × List Char :=
    match cs with
    | '-' :: r => (-1, r)
    | '+' :: r => (1, r)
    | _ => (1, cs)
  match cs with
  | 'I' :: 'n' :: 'f' :: 'i' :: 'n' :: 'i' :: 't' :: 'y' :: _ =>
    if sgn < 0 then JNum.ninf else JNum.pinf
  | _ =>
    let (ip, cs1) := spanDigits cs
    let (fp, cs2) :=
      match cs1 with
      | '.' :: r => spanDigits r
      | _ => ([], cs1)
    if ip = [] ∧ fp = [] then JNum.nan
    else
      let mantNum : Int := digitsVal ip * 10 ^ fp.length + digitsVal fp
      let mantDen : Int := 10 ^ fp.length
      let e := parseExponent cs2
      if 0 ≤ e then JNum.fin ⟨sgn * mantNum * 10 ^ e.toNat, mantDen⟩
      else JNum.fin ⟨sgn * mantNum, mantDen * 10 ^ (-e).toNat⟩

/-- JavaScript `parseInt(s, 10)`: skip whitespace, optional sign, longest
digit prefix; `none` models `NaN`. -/
def jsParseInt (s : String) : Option Int :=
  let cs := s.data.dropWhile jsWhite
  let (sgn, cs) : Int × List Char :=
    match cs with
    | '-' :: r => (-1, r)
    | '+' :: r => (1, r)
    | _ => (1, cs)
  let (ds, _) := spanDigits cs
  if ds = [] then none else some (sgn * (digitsVal ds : Int))

/-! ### Number-to-string -/

/-- Decimal digits of the fractional part `num/den` (`num < den`), at most
`fuel` digits, stopping when the remainder vanishes. -/
def fracDigits : Nat → Nat → Nat → List Char
  | 0, _, _ => []
  | _, 0, _ => []
  | Nat.succ fuel, num, den =>
    let num10 := num * 10
    Char.ofNat (48 + num10 / den) :: fracDigits fuel (num10 % den) den

/-- `Number.prototype.toString` for an exact rational: integer part, then
`.` and the fractional digits when nonzero (17-digit truncation models the
shortest-round-trip printing of doubles; exact for every value used below). -/
def fracToString (f : Frac) : String :=
  let g := f.norm
  let sgn := if g.num < 0 then "-" else ""
  let n := g.num.natAbs
  let d := g.den.natAbs
  let ip := n / d
  let fr := fracDigits 17 (n % d) d
  sgn ++ toString ip ++ (if fr = [] then "" else "." ++ ⟨fr⟩)

/-- `toString` for the rational-valued computed variables. -/
def ratToString (q : ℚ) : String := fracToString ⟨q.num, q.den⟩

/-- `String(x)` / `x.toString()` on a JavaScript number. -/
def jnumToString : JNum → String
  | JNum.nan => "NaN"
  | JNum.pinf => "Infinity"
  | JNum.ninf => "-Infinity"
  | JNum.fin q => fracToString q

/-- Inserts a comma after every three characters of a reversed digit list. -/
def group3 : List Char → List Char
  | a :: b :: c :: d :: rest => a :: b :: c :: ',' :: group3 (d :: rest)
  | l => l

/-- `n.toLocaleString('en-US')` digit grouping of a natural number. -/
def groupNat (n : Nat) : String := ⟨(group3 (toString n).data.reverse).reverse⟩

/-- `formatNumberWithComma` on a number argument (source lines 169–188): `'0'`
for `NaN`, otherwise the `toString` digits with the integer part comma-grouped
and the fractional digits preserved. -/
def formatNumberWithCommaNum : JNum → String
  | JNum.nan => "0"
  | JNum.pinf => "∞"
  | JNum.ninf => "-∞"
  | JNum.fin f =>
    let g := f.norm
    let sgn := if g.num < 0 then "-" else ""
    let n := g.num.natAbs
    let d := g.den.natAbs
    let fr := fracDigits 17 (n % d) d
    sgn ++ groupNat (n / d) ++ (if fr = [] then "" else "." ++ ⟨fr⟩)

/-- `formatNumberWithComma` on a string argument: every character other than
digits, `.` and `-` is stripped before parsing. -/
def formatNumberWithCommaStr (s : String) : String :=
  formatNumberWithCommaNum (jsParseFloat ⟨s.data.filter fun c =>
    c.isDigit || c = '.' || c = '-'⟩)

/-! ### List formatters (source lines 633–667) -/

/-- `formatListAnd`: Oxford-comma "and" join. -/
def formatListAnd : List String → String
  | [] => ""
  | [a] => a
  | [a, b] => a ++ " and " ++ b
  | items =>
    String.intercalate ", " (items.dropLast) ++ ", and " ++ (items.getLastD "")

/-- `formatListOr`: Oxford-comma "or" join. -/
def formatListOr : List String → String
  | [] => ""
  | [a] => a
  | [a, b] => a ++ " or " ++ b
  | items =>
    String.intercalate ", " (items.dropLast) ++ ", or " ++ (items.getLastD "")

/-- `formatListComma`: plain comma join. -/
def formatListComma (items : List String) : String :=
  String.intercalate ", " items

/-! ### Association-list model of JavaScript objects -/

/-- JavaScript property write: update in place, else append. -/
def setKey {α : Type} (k : String) (v : α) : List (String × α) → List (String × α)
  | [] => [(k, v)]
  | (k', v') :: rest =>
    if k' = k then (k', v) :: rest else (k', v') :: setKey k v rest

/-- JavaScript property read (`undefined` = `none`). -/
def getKey {α : Type} (k : String) : List (String × α) → Option α
  | [] => none
  | (k', v') :: rest => if k' = k then some v' else getKey k rest

/-! ### Data model (source lines 10–83)

Fields that none of the embedded functions read (`category`, `variables`,
`repeatForPersons`, `personTypeFilter`, `price`, mapping ids) are omitted.
Optional TypeScript fields keep `Option`; `Template.rules?` is modelled as a
plain list because `template.rules || []` makes `undefined` and `[]`
indistinguishable downstream. -/

/-- A survey answer value: scalar string, multi-select string array, or
repeating group (array of string records). -/
inductive RVal where
  | rstr (s : String)
  | rlist (vs : List String)
  | rrecs (items : List (List (String × String)))
deriving DecidableEq, Repr

/-- `SurveyResponse`. -/
structure SurveyResponse where
  questionId : String
  value : RVal
deriving DecidableEq, Repr

/-- JavaScript truthiness of an answer value (`''` is falsy, arrays truthy). -/
def rvalTruthy : RVal → Bool
  | RVal.rstr s => s ≠ ""
  | _ => true

/-- `String(value)` after the `Array.isArray` branch of the condition
evaluator: arrays are joined with `,`; a record stringifies to
`[object Object]`. -/
def stringifyRVal : RVal → String
  | RVal.rstr s => s
  | RVal.rlist vs => String.intercalate "," vs
  | RVal.rrecs items => String.intercalate "," (items.map fun _ => "[object Object]")

/-- A computed-variable value (`Record<string, string | number>`). -/
inductive CVal where
  | cnum (q : ℚ)
  | cstr (s : String)
deriving DecidableEq, Repr

/-- `String(v)` on a computed-variable value. -/
def stringifyCVal : CVal → String
  | CVal.cnum q => ratToString q
  | CVal.cstr s => s

/-- `RuleCondition`. -/
structure RuleCondition where
  questionId : String
  operator : String
  value : String
  valueType : Option String := none
  valueQuestionId : Option String := none
  sourceType : Option String := none
deriving DecidableEq, Repr

/-- `SelectionRule`. -/
structure SelectionRule where
  conditions : List RuleCondition
  logicalOperator : Option String := none
  priority : Int
  isAlwaysInclude : Bool
  isManualOnly : Bool
deriving DecidableEq, Repr

/-- `Template` (only the fields the selection engine reads). -/
structure Template where
  id : String
  name : String
  displayName : String
  rules : List SelectionRule := []
  isActive : Bool
deriving DecidableEq, Repr

/-- `TemplateSelection`. -/
structure TemplateSelection where
  required : List Template
  suggested : List Template
  optional : List Template
deriving DecidableEq, Repr

/-- `RuleEvaluationResult` (`score` is exact rational). -/
structure RuleEvaluationResult where
  templateId : String
  score : ℚ
  matchedRules : Nat
  totalRules : Nat
  isAlwaysInclude : Bool
  isManualOnly : Bool
deriving DecidableEq, Repr

/-! ### Condition evaluator (source lines 2212–2307) -/

/-- Single-character-separator string split (JavaScript `split(sep)`),
kernel-computable. -/
def splitOnChar (sep : Char) : List Char → List (List Char)
  | [] => [[]]
  | c :: rest =>
    let r := splitOnChar sep rest
    if c = sep then [] :: r else (c :: r.headD []) :: r.tail

/-- Whether `sub` occurs contiguously inside `s` (helper for `includes`). -/
def infixScan (sub : List Char) : List Char → Bool
  | [] => sub.isEmpty
  | c :: rest => sub.isPrefixOf (c :: rest) || infixScan sub rest

/-- `s.includes(sub)`. -/
def strIncludes (s sub : String) : Bool := infixScan sub.data s.data

/-- The operator dispatch of `evaluateCondition` once both the actual value
and the comparison operand are present, as strings. -/
def evalOp (op valueStr conditionValue : String) : Bool :=
  if op = "==" then
    let nv := jsParseFloat valueStr
    let nc := jsParseFloat conditionValue
    if !nv.isNaNB && !nc.isNaNB then JNum.eqB nv nc
    else lowerStr valueStr = lowerStr conditionValue
  else if op = "!=" then
    let nv := jsParseFloat valueStr
    let nc := jsParseFloat conditionValue
    if !nv.isNaNB && !nc.isNaNB then !JNum.eqB nv nc
    else lowerStr valueStr ≠ lowerStr conditionValue
  else if op = "contains" then
    strIncludes (lowerStr valueStr) (lowerStr conditionValue)
  else if op = "not_contains" then
    !strIncludes (lowerStr valueStr) (lowerStr conditionValue)
  else if op = "in" then
    (((splitOnChar ',' conditionValue.data).map fun v => lowerStr (trimStr ⟨v⟩))).contains
      (lowerStr valueStr)
  else if op = ">" then
    let nv := jsParseFloat valueStr
    let nc := jsParseFloat conditionValue
    !nv.isNaNB && !nc.isNaNB && JNum.ltB nc nv
  else if op = ">=" then
    let nv := jsParseFloat valueStr
    let nc := jsParseFloat conditionValue
    !nv.isNaNB && !nc.isNaNB && JNum.leB nc nv
  else if op = "<" then
    let nv := jsParseFloat valueStr
    let nc := jsParseFloat conditionValue
    !nv.isNaNB && !nc.isNaNB && JNum.ltB nv nc
  else if op = "<=" then
    let nv := jsParseFloat valueStr
    let nc := jsParseFloat conditionValue
    !nv.isNaNB && !nc.isNaNB && JNum.leB nv nc
  else false

/-- The actual value of a condition, as the string the evaluator compares
(`none` = answer missing). -/
def actualValueStr (condition : RuleCondition) (responses : List SurveyResponse)
    (computedVariables : Option (List (String × CVal))) : Option String :=
  if condition.sourceType = some "computed" ∧ computedVariables.isSome then
    match computedVariables with
    | some cv => (getKey condition.questionId cv).map stringifyCVal
    | none => none
  else
    ((responses.find? fun r => r.questionId == condition.questionId).map
      fun r => stringifyRVal r.value)

/-- The comparison operand of a condition (`none` = referenced answer
missing). -/
def conditionValueStr (condition : RuleCondition) (responses : List SurveyResponse) :
    Option String :=
  if condition.valueType = some "question" ∧ condition.valueQuestionId.getD "" ≠ "" then
    match condition.valueQuestionId with
    | some vq =>
      ((responses.find? fun r => r.questionId == vq).map fun r => stringifyRVal r.value)
    | none => none
  else some condition.value

/-- `evaluateCondition` (source lines 2212–2307). -/
def evaluateCondition (condition : RuleCondition) (responses : List SurveyResponse)
    (computedVariables : Option (List (String × CVal))) : Bool :=
  match actualValueStr condition responses computedVariables with
  | none => condition.operator = "!="
  | some valueStr =>
    match conditionValueStr condition responses with
    | none => condition.operator = "!="
    | some conditionValue => evalOp condition.operator valueStr conditionValue

/-! ### Rule scorer (source lines 2316–2410) -/

/-- Whether one rule's conditions hold under its logical operator
(`OR` = some, anything else = every). -/
def conditionsMet (rule : SelectionRule) (responses : List SurveyResponse)
    (computedVariables : Option (List (String × CVal))) : Bool :=
  if rule.logicalOperator = some "OR" then
    rule.conditions.any fun c => evaluateCondition c responses computedVariables
  else
    rule.conditions.all fun c => evaluateCondition c responses computedVariables

/-- Stable insertion of a rule into a priority-sorted list. -/
def insertRule (r : SelectionRule) : List SelectionRule → List SelectionRule
  | [] => [r]
  | x :: xs => if r.priority < x.priority then r :: x :: xs else x :: insertRule r xs

/-- The ascending-priority sort `[...rules].sort((a, b) => a.priority - b.priority)`. -/
def sortRules : List SelectionRule → List SelectionRule
  | [] => []
  | r :: rs => insertRule r (sortRules rs)

/-- `evaluateRules` (source lines 2316–2410). -/
def evaluateRules (template : Template) (responses : List SurveyResponse)
    (computedVariables : Option (List (String × CVal))) : RuleEvaluationResult :=
  let rules := template.rules
  if rules = [] then
    ⟨template.id, 0, 0, 0, false, false⟩
  else if rules.any (·.isAlwaysInclude) then
    ⟨template.id, 1, rules.length, rules.length, true, false⟩
  else if rules.any (·.isManualOnly) then
    ⟨template.id, 0, 0, rules.length, false, true⟩
  else
    let sorted := sortRules rules
    let matched := sorted.foldl
      (fun n rule =>
        if rule.conditions = [] then n
        else if conditionsMet rule responses computedVariables then n + 1 else n)
      (0 : Nat)
    let total := (rules.filter fun r => !r.conditions.isEmpty).length
    let score : ℚ := if 0 < total then (matched : ℚ) / (total : ℚ) else 0
    ⟨template.id, score, matched, total, false, false⟩

/-! ### Template selector (source lines 2425–2477) -/

/-- `displayName || name` (the sort key; `localeCompare` is modelled as
code-point order, which does not affect bucket membership). -/
def nameKey (t : Template) : String := if t.displayName ≠ "" then t.displayName else t.name

/-- Stable insertion of a template into a name-sorted list. -/
def insertTemplate (t : Template) : List Template → List Template
  | [] => [t]
  | x :: xs => if nameKey t < nameKey x then t :: x :: xs else x :: insertTemplate t xs

/-- `required.sort(sortByName)` etc. -/
def sortTemplates : List Template → List Template
  | [] => []
  | t :: ts => insertTemplate t (sortTemplates ts)

/-- One step of the selection loop: appends the template to the bucket chosen
by its evaluation. -/
def selectStep (responses : List SurveyResponse)
    (computedVariables : Option (List (String × CVal)))
    (acc : List Template × List Template × List Template) (t : Template) :
    List Template × List Template × List Template :=
  let ev := evaluateRules t responses computedVariables
  if ev.isAlwaysInclude then (acc.1 ++ [t], acc.2.1, acc.2.2)
  else if ev.isManualOnly then (acc.1, acc.2.1, acc.2.2 ++ [t])
  else if ev.totalRules = 0 then (acc.1, acc.2.1, acc.2.2 ++ [t])
  else if 1 ≤ ev.score then (acc.1 ++ [t], acc.2.1, acc.2.2)
  else if 1/2 < ev.score then (acc.1, acc.2.1 ++ [t], acc.2.2)
  else (acc.1, acc.2.1, acc.2.2 ++ [t])

/-- `selectTemplates` (source lines 2425–2477). -/
def selectTemplates (responses : List SurveyResponse) (templates : List Template)
    (computedVariables : Option (List (String × CVal))) : TemplateSelection :=
  let active := templates.filter (·.isActive)
  let part := active.foldl (selectStep responses computedVariables) ([], [], [])
  ⟨sortTemplates part.1, sortTemplates part.2.1, sortTemplates part.2.2⟩

/-! ### Computed variables (source lines 2167–2203) -/

/-- Whether a group item's `type` field is (case-insensitively) `corporation`
(a missing `type` is not). -/
def itemIsCorp (item : List (String × String)) : Bool :=
  match getKey "type" item with
  | some t => lowerStr t = "corporation"
  | none => false

/-- Processing of one response inside `computeVariablesFromResponses`
(the body of the loop at source lines 2173–2200). -/
def computeVarsStep (computed : List (String × CVal)) (r : SurveyResponse) :
    List (String × CVal) :=
  match r.value with
  | RVal.rrecs items =>
    if 0 < items.length then
      let b := r.questionId
      let cap := capFirst b
      let computed := setKey (b ++ "Count") (CVal.cnum items.length) computed
      let computed := setKey ("hasMultiple" ++ cap)
        (CVal.cstr (if 2 ≤ items.length then "true" else "")) computed
      let computed := setKey ("hasSingle" ++ cap)
        (CVal.cstr (if items.length = 1 then "true" else "")) computed
      if b = "founders" then
        let ind := items.filter fun item => !itemIsCorp item
        let corp := items.filter itemIsCorp
        let computed := setKey "individualFoundersCount" (CVal.cnum ind.length) computed
        let computed := setKey "corporationFoundersCount" (CVal.cnum corp.length) computed
        let computed := setKey "hasIndividualFounder"
          (CVal.cstr (if 1 ≤ ind.length then "true" else "")) computed
        setKey "hasCorporationFounder"
          (CVal.cstr (if 1 ≤ corp.length then "true" else "")) computed
      else computed
    else computed
  | _ => computed

/-- `computeVariablesFromResponses` (source lines 2167–2203). -/
def computeVariablesFromResponses (responses : List SurveyResponse) :
    List (String × CVal) :=
  responses.foldl computeVarsStep []

/-! ### Array helper variables (source lines 685–722) -/

/-- One entry of the loop-ready array emitted for a plain string array. -/
structure LoopEntry where
  value : String
  isFirst : Bool
  isLast : Bool
  index : Nat
deriving DecidableEq, Repr

/-- A helper-variable value: string or loop-ready array. -/
inductive HVal where
  | hstr (s : String)
  | harr (entries : List LoopEntry)
deriving DecidableEq, Repr

/-- `generateArrayHelperVariables` (source lines 685–722). -/
def generateArrayHelperVariables (baseName : String) (items : List String) :
    List (String × HVal) :=
  let cap := capFirst baseName
  let r : List (String × HVal) := []
  let r := setKey (baseName ++ "Count") (HVal.hstr (toString items.length)) r
  let r := setKey (baseName ++ "Formatted") (HVal.hstr (formatListAnd items)) r
  let r := setKey (baseName ++ "List") (HVal.hstr (formatListComma items)) r
  let r := setKey (baseName ++ "OrList") (HVal.hstr (formatListOr items)) r
  let r := if 0 < items.length then
      setKey (baseName ++ "Last") (HVal.hstr (items.getLastD ""))
        (setKey (baseName ++ "First") (HVal.hstr (items.headD "")) r)
    else r
  let r := setKey ("hasMultiple" ++ cap)
    (HVal.hstr (if 2 ≤ items.length then "true" else "")) r
  let r := setKey ("hasSingle" ++ cap)
    (HVal.hstr (if items.length = 1 then "true" else "")) r
  let r := setKey ("hasNo" ++ cap)
    (HVal.hstr (if items.length = 0 then "true" else "")) r
  let r := items.enum.foldl
    (fun r p => setKey (baseName ++ toString (p.1 + 1)) (HVal.hstr p.2) r) r
  setKey baseName
    (HVal.harr (items.enum.map fun p =>
      ⟨p.2, p.1 = 0, p.1 = items.length - 1, p.1 + 1⟩)) r

/-! ### Scalar boolean flags (source lines 1156–1174 and 2027–2041) -/

/-- The `hasUSAddress` variable written at source line 1174:
`'true'` when the `hasUSAddress` answer is exactly the string `'yes'`,
the empty string otherwise. -/
def hasUSAddressFlag (responses : List SurveyResponse) : String :=
  match responses.find? (fun r => r.questionId == "hasUSAddress") with
  | some r => if r.value = RVal.rstr "yes" then "true" else ""
  | none => ""

/-- The variable assignments of the `StockOption` block (source lines
2027–2041); the empty list when the answer is absent or falsy. -/
def stockOptionVars (responses : List SurveyResponse) : List (String × String) :=
  match responses.find? fun r =>
      r.questionId == "stockOption" || r.questionId == "StockOption" with
  | none => []
  | some r =>
    if rvalTruthy r.value then
      let stockOptionValue :=
        match r.value with
        | RVal.rstr s => lowerStr s
        | _ => ""
      let hasStockOption := ["yes", "true", "1", "y"].contains stockOptionValue
      [("hasStockOption", if hasStockOption then "true" else ""),
       ("HasStockOption", if hasStockOption then "true" else ""),
       ("stockOption", stockOptionValue),
       ("StockOption", stockOptionValue)]
    else []

/-! ### Safe math-expression evaluator (source lines 971–1006)

The `while` paren loop and the recursion are modelled with fuel; `none`
models the cases where the source would loop forever (unbalanced or empty
parentheses) or where the fuel runs out. -/

/-- `expression.replace(/\s+/g, '')`. -/
def stripWS (cs : List Char) : List Char := cs.filter fun c => !jsWhite c

/-- Neither `(` nor `)`. -/
def notParen (c : Char) : Bool := c != '(' && c != ')'

/-- One global pass of `expression.replace(/\(([^()]+)\)/g, …)`: every
innermost parenthesised group is replaced by the string form of its value
(computed by `ev`); the flag records whether any replacement happened.  The
fuel (always called with more fuel than characters) keeps the recursion
structural so that proofs can evaluate it. -/
def replaceParensOnce (ev : List Char → Option JNum) : Nat → List Char → Option (List Char × Bool)
  | 0, _ => none
  | Nat.succ _, [] => some ([], false)
  | Nat.succ f, c :: rest =>
    if c = '(' then
      let t := rest.takeWhile notParen
      match rest.dropWhile notParen with
      | ')' :: r2 =>
        if t.isEmpty then
          match replaceParensOnce ev f rest with
          | none => none
          | some (tail, flag) => some ('(' :: tail, flag)
        else
          match ev t, replaceParensOnce ev f r2 with
          | some v, some (tail, _) => some ((jnumToString v).data ++ tail, true)
          | _, _ => none
      | _ =>
        match replaceParensOnce ev f rest with
        | none => none
        | some (tail, flag) => some ('(' :: tail, flag)
    else
      match replaceParensOnce ev f rest with
      | none => none
      | some (tail, flag) => some (c :: tail, flag)

/-- The `while (expression.includes('('))` loop. -/
def parenLoop (ev : List Char → Option JNum) : Nat → List Char → Option (List Char)
  | 0, cs => if cs.contains '(' then none else some cs
  | Nat.succ f, cs =>
    if cs.contains '(' then
      match replaceParensOnce ev (cs.length + 1) cs with
      | none => none
      | some (cs', flag) => if flag then parenLoop ev f cs' else none
    else some cs

/-- The first position of one of `ops` usable as a binary-operator split:
left part nonempty, operator not at the end (the regex
`/(.+?)(op)(?!$)(.+)/` of the source). -/
def findOpSplitAux (ops : List Char) (acc : List Char) :
    List Char → Option (List Char × Char × List Char)
  | [] => none
  | c :: rest =>
    if ops.contains c && !acc.isEmpty && !rest.isEmpty then some (acc.reverse, c, rest)
    else findOpSplitAux ops (c :: acc) rest

/-- Leftmost-split search (see `findOpSplitAux`). -/
def findOpSplit (ops : List Char) (cs : List Char) :
    Option (List Char × Char × List Char) :=
  findOpSplitAux ops [] cs

/-- `/[+\-*/]$/.test(left)`: the unary-minus guard. -/
def endsWithOp (l : List Char) : Bool :=
  match l.getLast? with
  | some c => ['+', '-', '*', '/'].contains c
  | none => false

/-- The multiplication/division split and the `parseFloat(expression) || 0`
base case of `evaluateMathExpression`. -/
def mulDivOrBase (ev : List Char → Option JNum) (e : List Char) : Option JNum :=
  match findOpSplit ['*', '/'] e with
  | some (l, op, r) =>
    match ev l, ev r with
    | some a, some b => some (if op = '*' then JNum.mul a b else JNum.div a b)
    | _, _ => none
  | none =>
    some (match jsParseFloat ⟨e⟩ with
          | JNum.nan => JNum.fin 0
          | x => x)

/-- `evaluateMathExpression` (source lines 971–1006), with fuel. -/
def evalMath : Nat → List Char → Option JNum
  | 0, _ => none
  | Nat.succ fuel, cs0 =>
    let cs := stripWS cs0
    match parenLoop (evalMath fuel) (cs.length + 1) cs with
    | none => none
    | some e =>
      match findOpSplit ['+', '-'] e with
      | some (l, op, r) =>
        if !endsWithOp l then
          match evalMath fuel l, evalMath fuel r with
          | some a, some b => some (if op = '+' then JNum.add a b else JNum.sub a b)
          | _, _ => none
        else mulDivOrBase (evalMath fuel) e
      | none => mulDivOrBase (evalMath fuel) e

/-- `evaluateMathExpression` on a string. -/
def evaluateMathExpression (s : String) : Option JNum :=
  evalMath (s.data.length + 100) s.data

/-! ### Formula evaluator (source lines 898–966) -/

/-- All placeholder names matched by `/\x7b([^\x7d]+)\x7d/g`, in match order
(fuel-structural; always called with enough fuel). -/
def scanPlaceholders : Nat → List Char → List (List Char)
  | 0, _ => []
  | Nat.succ _, [] => []
  | Nat.succ f, c :: rest =>
    if c = '{' then
      let t := rest.takeWhile (· != '}')
      match rest.dropWhile (· != '}') with
      | '}' :: r2 => if t.isEmpty then scanPlaceholders f rest else t :: scanPlaceholders f r2
      | _ => scanPlaceholders f rest
    else scanPlaceholders f rest

/-- `expression.split(pat).join(repl)`: replace all (non-overlapping,
left-to-right) occurrences (fuel-structural; always called with enough fuel). -/
def replaceAll (pat repl : List Char) : Nat → List Char → List Char
  | 0, l => l
  | Nat.succ _, [] => []
  | Nat.succ f, c :: rest =>
    if pat.isPrefixOf (c :: rest) && !pat.isEmpty then
      repl ++ replaceAll pat repl f ((c :: rest).drop pat.length)
    else c :: replaceAll pat repl f rest

/-- The numeric value substituted for a placeholder: missing or empty
variables become 0, the value is stripped of `$` and `,`, and an unparseable
value becomes 0. -/
def formulaVarNum (vars : List (String × String)) (name : List Char) : JNum :=
  match getKey ⟨name⟩ vars with
  | none => JNum.fin 0
  | some v =>
    if v = "" then JNum.fin 0
    else
      match jsParseFloat ⟨v.data.filter fun c => !(c = '$' || c = ',')⟩ with
      | JNum.nan => JNum.fin 0
      | x => x

/-- The expression after placeholder substitution. -/
def substitutedExpr (formula : String) (vars : List (String × String)) : List Char :=
  (scanPlaceholders (formula.data.length + 1) formula.data).foldl
    (fun e name =>
      replaceAll ('{' :: (name ++ ['}'])) (jnumToString (formulaVarNum vars name)).data
        (e.length + 1) e)
    formula.data

/-- Membership in the whitelist `[\d\s+\-*/().]`. -/
def formulaCharAllowed (c : Char) : Bool :=
  c.isDigit || jsWhite c || c = '+' || c = '-' || c = '*' || c = '/' ||
    c = '(' || c = ')' || c = '.'

/-- The whitelist test `/^[\d\s+\-*/().]+$/` (fails on the empty string). -/
def formulaExprOK (e : List Char) : Bool := !e.isEmpty && e.all formulaCharAllowed

/-- `evaluateFormula` (source lines 898–966); `none` models the diverging
paren loop, every other branch matches the source's returned string. -/
def evaluateFormula (formula : String) (vars : List (String × String)) : Option String :=
  if trimStr formula = "" then some ""
  else
    let expr := substitutedExpr formula vars
    if !formulaExprOK expr then some ""
    else
      match evalMath (expr.length + 100) expr with
      | none => none
      | some j =>
        if j.isNaNB || j = JNum.pinf || j = JNum.ninf then some ""
        else some (jnumToString j)

/-! ### Calendar model for the `SHSIGNDate` derivation (source lines 1106–1148)

`new Date(y, m + 1, 0)` is the last day of month `m`; `getDay()` is computed
with the standard civil-calendar day-number algorithm (1970-01-01 ↦ 0,
Thursday). -/

/-- Gregorian leap year. -/
def isLeap (y : Int) : Bool := y % 4 = 0 && (y % 100 ≠ 0 || y % 400 = 0)

/-- Month length; `m` is the 0-indexed month. -/
def monthLen (y : Int) (m : Nat) : Nat :=
  match m with
  | 0 => 31
  | 1 => if isLeap y then 29 else 28
  | 2 => 31
  | 3 => 30
  | 4 => 31
  | 5 => 30
  | 6 => 31
  | 7 => 31
  | 8 => 30
  | 9 => 31
  | 10 => 30
  | _ => 31

/-- Days since 1970-01-01 of the civil date (`m` 0-indexed). -/
def daysFromCivil (y : Int) (m : Nat) (d : Int) : Int :=
  let m1 : Int := (m : Int) + 1
  let y' := if m1 ≤ 2 then y - 1 else y
  let era : Int := Int.fdiv y' 400
  let yoe : Int := y' - era * 400
  let mp : Int := (m1 + 9) % 12
  let doy : Int := Int.fdiv (153 * mp + 2) 5 + d - 1
  let doe : Int := yoe * 365 + Int.fdiv yoe 4 - Int.fdiv yoe 100 + doy
  era * 146097 + doe - 719468

/-- `Date.prototype.getDay` (0 = Sunday … 6 = Saturday). -/
def weekday (y : Int) (m : Nat) (d : Int) : Int := (daysFromCivil y m d + 4) % 7

/-- Saturday or Sunday. -/
def isWeekendB (y : Int) (m : Nat) (d : Int) : Bool := weekday y m d = 0 || weekday y m d = 6

/-- The backward walk
`while (lastDayOfMonth.getDay() === 0 || lastDayOfMonth.getDay() === 6) day--`. -/
def lastBizWalk (y : Int) (m : Nat) : Nat → Nat
  | 0 => 0
  | Nat.succ d =>
    if isWeekendB y m ((d : Int) + 1) then lastBizWalk y m d else d + 1

/-- Target month selection of the `SHSIGNDate` rule (source lines 1128–1135):
same month when the day is before the 15th, else the next month, with
December rolling over into January of the next year. -/
def shsignTarget (year month0 day : Int) : Int × Int :=
  let tm := if day < 15 then month0 else month0 + 1
  if 11 < tm then (year + 1, 0) else (year, tm)

/-- The `SHSIGNDate` computed from a parsed `cashin` date: target month plus
the backward business-day walk from the calendar month end. -/
def shsignDate (year month0 day : Int) : Int × Int × Nat :=
  let t := shsignTarget year month0 day
  (t.1, t.2, lastBizWalk t.1 t.2.toNat (monthLen t.1 t.2.toNat))

/-- Parse of a dash-separated `cashin` value (source lines 1110–1114);
`none` models the `NaN` branch (and the non-dash `new Date(...)` fallback,
which the embedding does not model). -/
def parseCashinParts (s : String) : Option (Int × Int × Int) :=
  if s.data.contains '-' then
    let parts := (splitOnChar '-' s.data).map fun p => (⟨p⟩ : String)
    match jsParseInt (parts.getD 0 ""), jsParseInt (parts.getD 1 ""),
        jsParseInt (parts.getD 2 "") with
    | some y, some mo, some d => some (y, mo - 1, d)
    | _, _, _ => none
  else none

/-- End-to-end `SHSIGNDate` from the raw `cashin` string. -/
def shsignFromCashin (s : String) : Option (Int × Int × Nat) :=
  (parseCashinParts s).map fun p => shsignDate p.1 p.2.1 p.2.2

/-! ### Founder share fallback and sums (source lines 1876–1940) -/

/-- The in-progress variable map of `transformSurveyToVariables`. -/
def VarMap : Type := List (String × String)

/-- JavaScript truthiness of `result[k]`. -/
def varTruthy (m : VarMap) (k : String) : Bool :=
  match getKey k m with
  | some s => s ≠ ""
  | none => false

/-- `parseFloat(v.replace(/[$,]/g, ''))`. -/
def cleanMoneyNum (s : String) : JNum :=
  jsParseFloat ⟨s.data.filter fun c => !(c = '$' || c = ',')⟩

/-- `parseFloat(v.replace(/,/g, ''))`. -/
def cleanCommaNum (s : String) : JNum :=
  jsParseFloat ⟨s.data.filter fun c => !(c = ',')⟩

/-- `Founder{i}Share` (the loop's `shareKey`). -/
def fShareKey (i : Nat) : String := "Founder" ++ toString i ++ "Share"

/-- `Founder{i}Cash` (the loop's `cashKey`). -/
def fCashKey (i : Nat) : String := "Founder" ++ toString i ++ "Cash"

/-- The loop's `founderCashNum`:
`parseFloat((result[cashKey] || '0').replace(/[$,]/g, ''))`. -/
def founderCashNum (i : Nat) (m : VarMap) : JNum :=
  cleanMoneyNum ((getKey (fCashKey i) m).getD "0")

/-- The loop's `fmvNum`: `parseFloat((result['FMV'] || '0').replace(/[$,]/g, ''))`. -/
def fmvNum (m : VarMap) : JNum :=
  cleanMoneyNum ((getKey "FMV" m).getD "0")

/-- Step 10 for founder 1 (source lines 1877–1889): no `cash > 0` guard. -/
def founderShareStep1 (m : VarMap) : VarMap :=
  if !varTruthy m "Founder1Share" && varTruthy m "Founder1Cash" && varTruthy m "FMV" then
    if !(founderCashNum 1 m).isNaNB && !(fmvNum m).isNaNB &&
        !(JNum.eqB (fmvNum m) (JNum.fin 0)) then
      setKey "Founder1Share"
        (formatNumberWithCommaNum (JNum.div (founderCashNum 1 m) (fmvNum m))) m
    else m
  else m

/-- Step 10 for founders 2–9 (source lines 1892–1906): additionally requires
`founderCashNum > 0`. -/
def founderShareStepI (i : Nat) (m : VarMap) : VarMap :=
  if !varTruthy m (fShareKey i) && varTruthy m (fCashKey i) && varTruthy m "FMV" then
    if !(founderCashNum i m).isNaNB && !(fmvNum m).isNaNB &&
        !(JNum.eqB (fmvNum m) (JNum.fin 0)) &&
        JNum.ltB (JNum.fin 0) (founderCashNum i m) then
      setKey (fShareKey i)
        (formatNumberWithCommaNum (JNum.div (founderCashNum i m) (fmvNum m))) m
    else m
  else m

/-- Founder `i`'s contribution to `totalCash` (source lines 1916–1921). -/
def founderCashTerm (m : VarMap) (i : Nat) : JNum :=
  let cashKey := "Founder" ++ toString i ++ "Cash"
  if varTruthy m cashKey then
    let n := cleanMoneyNum ((getKey cashKey m).getD "0")
    if n.isNaNB then JNum.fin 0 else n
  else JNum.fin 0

/-- Founder `i`'s contribution to `totalShare` (source lines 1923–1928);
note only commas are stripped here. -/
def founderShareTerm (m : VarMap) (i : Nat) : JNum :=
  let shareKey := "Founder" ++ toString i ++ "Share"
  if varTruthy m shareKey then
    let n := cleanCommaNum ((getKey shareKey m).getD "0")
    if n.isNaNB then JNum.fin 0 else n
  else JNum.fin 0

/-- `totalCash` over founders 1–9. -/
def totalFounderCash (m : VarMap) : JNum :=
  ([1, 2, 3, 4, 5, 6, 7, 8, 9].map (founderCashTerm m)).foldl JNum.add (JNum.fin 0)

/-- `totalShare` over founders 1–9. -/
def totalFounderShare (m : VarMap) : JNum :=
  ([1, 2, 3, 4, 5, 6, 7, 8, 9].map (founderShareTerm m)).foldl JNum.add (JNum.fin 0)

/-- Steps 10 and 10b of `transformSurveyToVariables` (source lines
1876–1940): the fallback `Founder{i}Share` computations followed by the
`cashSum`/`shareSum` aggregation. -/
def founderShareFallback (m : VarMap) : VarMap :=
  let m := founderShareStep1 m
  let m := [2, 3, 4, 5, 6, 7, 8, 9].foldl (fun m i => founderShareStepI i m) m
  let cashStr := "$" ++ formatNumberWithCommaNum (totalFounderCash m)
  let shareStr := formatNumberWithCommaNum (totalFounderShare m)
  let m := setKey "cashSum" cashStr m
  let m := setKey "CashSum" cashStr m
  let m := setKey "CASHSUM" cashStr m
  let m := setKey "shareSum" shareStr m
  let m := setKey "ShareSum" shareStr m
  setKey "SHARESUM" shareStr m

/-! ### Case variations (source lines 2064–2105) -/

/-- A value of the final variable map: string, or a pass-through array. -/
inductive VVal where
  | vstr (s : String)
  | varr (items : List (List (String × String)))
deriving DecidableEq, Repr

/-- Truthiness of `result[k]` in `createCaseVariations` (empty strings are
falsy, arrays truthy, absent keys falsy). -/
def vTruthy (v : Option VVal) : Bool :=
  match v with
  | some (VVal.vstr s) => s ≠ ""
  | some (VVal.varr _) => true
  | none => false

/-- `if (!result[k]) result[k] = value` — the alias write. -/
def setIfFalsy (k : String) (s : String) (m : List (String × VVal)) :
    List (String × VVal) :=
  if vTruthy (getKey k m) then m else setKey k (VVal.vstr s) m

/-- Processing of one `[key, value]` entry of `createCaseVariations`. -/
def ccvStep (res : List (String × VVal)) (kv : String × VVal) : List (String × VVal) :=
  match kv.2 with
  | VVal.varr a => setKey kv.1 (VVal.varr a) res
  | VVal.vstr s =>
    let res := setKey kv.1 (VVal.vstr s) res
    let res := setIfFalsy (lowerStr kv.1) s res
    let res := setIfFalsy (upperStr kv.1) s res
    let res := setIfFalsy (capFirst kv.1) s res
    setIfFalsy (uncapFirst kv.1) s res

/-- `createCaseVariations` (source lines 2064–2105). -/
def createCaseVariations (m : List (String × VVal)) : List (String × VVal) :=
  m.foldl ccvStep []

/-- The rule scorer restated without the priority sort and the running
fold: the counts are direct `countP`s over the unsorted rule list.  Shared
specification target for the rule-scorer theorems. -/
def evalRulesSpec (tid : String) (rules : List SelectionRule)
    (responses : List SurveyResponse)
    (computedVariables : Option (List (String × CVal))) : RuleEvaluationResult :=
  if rules = [] then ⟨tid, 0, 0, 0, false, false⟩
  else if rules.any (·.isAlwaysInclude) then ⟨tid, 1, rules.length, rules.length, true, false⟩
  else if rules.any (·.isManualOnly) then ⟨tid, 0, 0, rules.length, false, true⟩
  else
    let matched := rules.countP fun r =>
      !r.conditions.isEmpty && conditionsMet r responses computedVariables
    let total := rules.countP fun r => !r.conditions.isEmpty
    ⟨tid, if 0 < total then (matched : ℚ) / (total : ℚ) else 0, matched, total, false, false⟩

/-- A selection rule with its priority erased (priority 0): the quotient on
which the rule scorer is claimed to depend. -/
def stripPriority (r : SelectionRule) : SelectionRule :=
  { r with priority := 0 }

/-- The share-computation part of the fallback (steps before the sums). -/
def founderShareSteps (m : VarMap) : VarMap :=
  [2, 3, 4, 5, 6, 7, 8, 9].foldl (fun m i => founderShareStepI i m) (founderShareStep1 m)

/-- The flag assignments of the repeating-group loop, source lines
1239–1244 (`hasMultiple{Group}` / `hasSingle{Group}` inside
`transformSurveyToVariables`). -/
def groupFlagVars (baseName : String) (items : List (List (String × String))) :
    List (String × String) :=
  let cap := capFirst baseName
  [("hasMultiple" ++ cap, if 2 ≤ items.length then "true" else ""),
   ("hasSingle" ++ cap, if items.length = 1 then "true" else "")]

/-- Whether an `Option JNum` is a finite value numerically equal to the
integer `n`. -/
def evalIsNum (r : Option JNum) (n : Int) : Bool :=
  match r with
  | some (JNum.fin f) => f.feq ⟨n, 1⟩
  | _ => false

/-- The flag assignments of `generateArrayHelperVariables`, source lines
704–706 (`hasMultiple` / `hasSingle` / `hasNo`). -/
def arrayHelperFlagVars (baseName : String) (items : List String) :
    List (String × String) :=
  let cap := capFirst baseName
  [("hasMultiple" ++ cap, if 2 ≤ items.length then "true" else ""),
   ("hasSingle" ++ cap, if items.length = 1 then "true" else ""),
   ("hasNo" ++ cap, if items.length = 0 then "true" else "")]

/-- An entry of the computed-variable map is a numeric count or a flag bound
to `"true"` or `""`. -/
def isOkCVal (kv : String × CVal) : Bool :=
  match kv.2 with
  | CVal.cnum _ => true
  | CVal.cstr s => s == "true" || s == ""

/-- The branch condition under which `selectTemplates` pushes an active
template into `required` (the if-chain of source lines 2440–2465). -/
def predRequired (responses : List SurveyResponse)
    (computedVariables : Option (List (String × CVal))) (t : Template) : Bool :=
  let ev := evaluateRules t responses computedVariables
  ev.isAlwaysInclude || (!ev.isManualOnly && !decide (ev.totalRules = 0) &&
    decide (1 ≤ ev.score))

/-- The branch condition for the `suggested` bucket. -/
def predSuggested (responses : List SurveyResponse)
    (computedVariables : Option (List (String × CVal))) (t : Template) : Bool :=
  let ev := evaluateRules t responses computedVariables
  !ev.isAlwaysInclude && !ev.isManualOnly && !decide (ev.totalRules = 0) &&
    !decide (1 ≤ ev.score) && decide (1/2 < ev.score)

/-- The branch condition for the `optional` bucket. -/
def predOptional (responses : List SurveyResponse)
    (computedVariables : Option (List (String × CVal))) (t : Template) : Bool :=
  !predRequired responses computedVariables t && !predSuggested responses computedVariables t

/-!
## Theorems

First general helper lemmas, then one theorem per claim (with witnesses and
counterexamples where applicable).
-/

theorem getKey_setKey_same {α : Type} (k : String) (v : α) (m : List (String × α)) :
    getKey k (setKey k v m) = some v := by
  induction m with
  | nil => simp [setKey, getKey]
  | cons hd tl ih =>
    obtain ⟨k', v'⟩ := hd
    by_cases h : k' = k <;> simp [setKey, getKey, h, ih]

theorem getKey_setKey_ne {α : Type} {k j : String} (v : α) (m : List (String × α))
    (h : k ≠ j) : getKey j (setKey k v m) = getKey j m := by
  induction m with
  | nil => simp [setKey, getKey, h]
  | cons hd tl ih =>
    obtain ⟨k', v'⟩ := hd
    by_cases hk : k' = k
    · subst hk
      simp [setKey, getKey, h, ih]
    · simp [setKey, getKey, hk, ih]

theorem getKey_setKey_isSome {α : Type} (k j : String) (v : α) (m : List (String × α))
    (h : (getKey j m).isSome) : (getKey j (setKey k v m)).isSome := by
  by_cases hkj : k = j
  · subst hkj; simp [getKey_setKey_same]
  · rwa [getKey_setKey_ne v m hkj]

theorem all_setKey {α : Type} (p : String × α → Bool) (k : String) (v : α)
    (m : List (String × α)) (hm : m.all p = true) (hv : p (k, v) = true) :
    (setKey k v m).all p = true := by
  induction m with
  | nil => simpa [setKey]
  | cons hd tl ih =>
    obtain ⟨k', v'⟩ := hd
    simp only [List.all_cons, Bool.and_eq_true] at hm
    by_cases h : k' = k
    · subst h
      simpa [setKey, hv] using hm.2
    · simp [setKey, h, hm.1, ih hm.2]

theorem isOkCVal_num (k : String) (q : ℚ) : isOkCVal (k, CVal.cnum q) = true := rfl

theorem isOkCVal_flag (k : String) (c : Prop) [Decidable c] :
    isOkCVal (k, CVal.cstr (if c then "true" else "")) = true := by
  by_cases h : c <;> simp [isOkCVal, h]

theorem computeVarsStep_all_ok (computed : List (String × CVal)) (r : SurveyResponse)
    (h : computed.all isOkCVal = true) :
    (computeVarsStep computed r).all isOkCVal = true := by
  rcases r with ⟨qid, val⟩
  rcases val with s | vs | items
  · exact h
  · exact h
  · unfold computeVarsStep
    dsimp only
    by_cases hlen : 0 < items.length
    · rw [if_pos hlen]
      by_cases hf : qid = "founders"
      · rw [if_pos hf]
        apply all_setKey _ _ _ _ ?_ (isOkCVal_flag _ _)
        apply all_setKey _ _ _ _ ?_ (isOkCVal_flag _ _)
        apply all_setKey _ _ _ _ ?_ (isOkCVal_num _ _)
        apply all_setKey _ _ _ _ ?_ (isOkCVal_num _ _)
        apply all_setKey _ _ _ _ ?_ (isOkCVal_flag _ _)
        apply all_setKey _ _ _ _ ?_ (isOkCVal_flag _ _)
        exact all_setKey _ _ _ _ h (isOkCVal_num _ _)
      · rw [if_neg hf]
        apply all_setKey _ _ _ _ ?_ (isOkCVal_flag _ _)
        apply all_setKey _ _ _ _ ?_ (isOkCVal_flag _ _)
        exact all_setKey _ _ _ _ h (isOkCVal_num _ _)
    · rw [if_neg hlen]
      exact h

theorem computeVariables_all_ok (responses : List SurveyResponse) :
    (computeVariablesFromResponses responses).all isOkCVal = true := by
  suffices h : ∀ (l : List SurveyResponse) (init : List (String × CVal)),
      init.all isOkCVal = true → (l.foldl computeVarsStep init).all isOkCVal = true by
    exact h responses [] rfl
  intro l
  induction l with
  | nil =>
    intro init h
    simp only [List.foldl_nil]
    exact h
  | cons r tl ih =>
    intro init hinit
    simp only [List.foldl_cons]
    exact ih _ (computeVarsStep_all_ok init r hinit)

/-- C10: every boolean flag the engine emits is bound to `"true"` when its
condition holds and to `""` otherwise — never to `"false"`: the computed
variables are numeric counts or `"true"`/`""` flags; the `hasMultiple` /
`hasSingle` flags of the repeating-group loop, the `hasMultiple` /
`hasSingle` / `hasNo` flags of the array helpers, `hasUSAddress`, and
`hasStockOption` all take only the values `"true"` and `""`. -/
theorem theorem_C10_flag_values :
    (∀ rs : List SurveyResponse, (computeVariablesFromResponses rs).all isOkCVal = true) ∧
    (∀ (b : String) (items : List (List (String × String))) (kv : String × String),
      kv ∈ groupFlagVars b items → kv.2 = "true" ∨ kv.2 = "") ∧
    (∀ (b : String) (items : List String) (kv : String × String),
      kv ∈ arrayHelperFlagVars b items → kv.2 = "true" ∨ kv.2 = "") ∧
    (∀ items : List String,
      getKey "hasNoDirectors" (generateArrayHelperVariables "directors" items) =
        some (HVal.hstr (if items.length = 0 then "true" else ""))) ∧
    (∀ rs : List SurveyResponse, hasUSAddressFlag rs = "true" ∨ hasUSAddressFlag rs = "") ∧
    (∀ rs : List SurveyResponse,
      getKey "hasStockOption" (stockOptionVars rs) = none ∨
      getKey "hasStockOption" (stockOptionVars rs) = some "true" ∨
      getKey "hasStockOption" (stockOptionVars rs) = some "") := by
  refine ⟨computeVariables_all_ok, ?_, ?_, ?_, ?_, ?_⟩
  · intro b items kv hkv
    simp only [groupFlagVars, List.mem_cons, List.mem_singleton] at hkv
    rcases hkv with h | h | h
    · subst h; simp only; split <;> simp
    · subst h; simp only; split <;> simp
    · cases h
  · intro b items kv hkv
    simp only [arrayHelperFlagVars, List.mem_cons, List.mem_singleton] at hkv
    rcases hkv with h | h | h | h
    · subst h; simp only; split <;> simp
    · subst h; simp only; split <;> simp
    · subst h; simp only; split <;> simp
    · cases h
  · intro items
    have hne1 : ("directors" : String) ≠ "hasNoDirectors" := by decide
    have hne2 : ∀ s : String, "directors" ++ s ≠ "hasNoDirectors" := by
      intro s h
      have hd : ("directors" ++ s).data = "hasNoDirectors".data := by rw [h]
      have hd2 : ("directors").data ++ s.data = "hasNoDirectors".data := hd
      simp at hd2
    have hfold : ∀ (l : List (Nat × String)) (r : List (String × HVal)),
        getKey "hasNoDirectors"
          (l.foldl (fun r p =>
            setKey ("directors" ++ toString (p.1 + 1)) (HVal.hstr p.2) r) r) =
        getKey "hasNoDirectors" r := by
      intro l
      induction l with
      | nil => intro r; rfl
      | cons p tl ih =>
        intro r
        simp only [List.foldl_cons]
        rw [ih, getKey_setKey_ne _ _ (hne2 _)]
    simp only [generateArrayHelperVariables]
    rw [getKey_setKey_ne _ _ hne1, hfold,
      show ("hasNo" ++ capFirst "directors" : String) = "hasNoDirectors" by decide,
      getKey_setKey_same]
  · intro rs
    unfold hasUSAddressFlag
    cases hfind : rs.find? (fun r => r.questionId == "hasUSAddress") with
    | none => right; rfl
    | some r =>
      dsimp only
      by_cases hv : r.value = RVal.rstr "yes" <;> simp [hv]
  · intro rs
    unfold stockOptionVars
    cases hfind : rs.find? (fun r =>
        r.questionId == "stockOption" || r.questionId == "StockOption") with
    | none => left; rfl
    | some r =>
      dsimp only
      by_cases ht : rvalTruthy r.value = true
      · rw [if_pos ht]
        cases hb : ["yes", "true", "1", "y"].contains
            (match r.value with | RVal.rstr s => lowerStr s | _ => "") with
        | false =>
          right; right
          rfl
        | true =>
          right; left
          rfl
      · rw [if_neg ht]
        left; rfl

/-- Closed instance of `theorem_C10_flag_values`. -/
theorem theorem_C10_witness :
    (("hasMultipleDirectors", "") : String × String).2 = "true" ∨
      (("hasMultipleDirectors", "") : String × String).2 = "" :=
  theorem_C10_flag_values.2.1 "directors" [] ("hasMultipleDirectors", "") (by decide)

/-- C4: the claim states that `evaluateMathExpression` evaluates
same-precedence operator chains left-to-right (left-associatively), so that
`"10-2-3"` evaluates to 5 and `"8/2/2"` to 2.  The code instead splits at the
*first* `+`/`-` (resp. `*`/`/`) and recurses into the whole right-hand side,
making those chains right-associative: `"10-2-3"` evaluates to
`10 - (2 - 3) = 11` and `"8/2/2"` to `8 / (2 / 2) = 8`.  This theorem
evaluates the embedded code at the failing inputs. -/
theorem theorem_C4_right_assoc :
    evalIsNum (evaluateMathExpression "10-2-3") 11 = true ∧
    evalIsNum (evaluateMathExpression "10-2-3") 5 = false ∧
    evalIsNum (evaluateMathExpression "8/2/2") 8 = true ∧
    evalIsNum (evaluateMathExpression "8/2/2") 2 = false := by
  decide

/-- C5: `evaluateFormula` never throws: placeholders are substituted with
numeric values (missing, empty and non-numeric variables become 0); a
substituted expression containing any character outside the whitelist
`[0-9 \t\n\r + - * / ( ) .]` yields `""`; a `NaN` or infinite result yields
`""`; `evaluateFormula "\x7ba\x7d * \x7bb\x7d" \x7ba:"3", b:"4"\x7d = "12"`;
and division by a zero-valued variable yields `""`. -/
theorem theorem_C5_formula_contract :
    (∀ (formula : String) (vars : List (String × String)),
      formulaExprOK (substitutedExpr formula vars) = false →
      evaluateFormula formula vars = some "") ∧
    (∀ (formula : String) (vars : List (String × String)) (j : JNum),
      evalMath ((substitutedExpr formula vars).length + 100)
          (substitutedExpr formula vars) = some j →
      (j.isNaNB || j = JNum.pinf || j = JNum.ninf) = true →
      evaluateFormula formula vars = some "") ∧
    (∀ (vars : List (String × String)) (name : List Char),
      getKey (⟨name⟩ : String) vars = none ∨ getKey (⟨name⟩ : String) vars = some "" →
      formulaVarNum vars name = JNum.fin 0) ∧
    (∀ (vars : List (String × String)) (name : List Char) (v : String),
      getKey (⟨name⟩ : String) vars = some v →
      (jsParseFloat ⟨v.data.filter fun c => !(c = '$' || c = ',')⟩) = JNum.nan →
      formulaVarNum vars name = JNum.fin 0) ∧
    evaluateFormula "{a} * {b}" [("a", "3"), ("b", "4")] = some "12" ∧
    evaluateFormula "{a} / {b}" [("a", "3"), ("b", "0")] = some "" := by
  refine ⟨?_, ?_, ?_, ?_, by decide, by decide⟩
  · intro formula vars hbad
    unfold evaluateFormula
    by_cases ht : trimStr formula = "" <;> simp [ht, hbad]
  · intro formula vars j hj hnf
    unfold evaluateFormula
    by_cases ht : trimStr formula = ""
    · simp [ht]
    · by_cases hok : formulaExprOK (substitutedExpr formula vars)
      · simp only [if_neg ht, hok, Bool.not_true, Bool.false_eq_true, if_false]
        rw [hj]
        simp [hnf]
      · simp [if_neg ht, hok]
  · intro vars name h
    rcases h with h | h <;> simp [formulaVarNum, h]
  · intro vars name v hv hparse
    unfold formulaVarNum
    rw [hv]
    by_cases hve : v = ""
    · simp [hve]
    · simp only [if_neg hve, hparse]

/-- Closed instance of `theorem_C5_formula_contract`: a disallowed character
(`^`) in the substituted expression yields the empty string. -/
theorem theorem_C5_witness :
    evaluateFormula "{a} ^ 2" [("a", "3")] = some "" :=
  theorem_C5_formula_contract.1 "{a} ^ 2" [("a", "3")] (by decide)

/-- C3: semantics of `evaluateCondition`.  A missing actual value yields
`false` except under `!=`, which yields `true`; `==`/`!=` compare
numerically when both operands `parseFloat`, case-insensitively as strings
otherwise; `contains`/`not_contains` are case-insensitive substring tests;
`in` is membership in a comma-separated, trimmed, lower-cased allow-list;
the ordering operators are `false` unless both operands parse as numbers, in
which case they compare numerically (so `"5" > "3"` holds by numeric
coercion). -/
theorem theorem_C3_condition_semantics :
    ∀ (c : RuleCondition) (rs : List SurveyResponse) (cv : Option (List (String × CVal))),
      (actualValueStr c rs cv = none →
        (evaluateCondition c rs cv = true ↔ c.operator = "!=")) ∧
      (∀ a w, actualValueStr c rs cv = some a → conditionValueStr c rs = some w →
        (c.operator = "==" →
          (((!(jsParseFloat a).isNaNB && !(jsParseFloat w).isNaNB) = true →
            evaluateCondition c rs cv = JNum.eqB (jsParseFloat a) (jsParseFloat w)) ∧
           (((jsParseFloat a).isNaNB || (jsParseFloat w).isNaNB) = true →
            (evaluateCondition c rs cv = true ↔ lowerStr a = lowerStr w)))) ∧
        (c.operator = "!=" →
          (((!(jsParseFloat a).isNaNB && !(jsParseFloat w).isNaNB) = true →
            evaluateCondition c rs cv = !JNum.eqB (jsParseFloat a) (jsParseFloat w)) ∧
           (((jsParseFloat a).isNaNB || (jsParseFloat w).isNaNB) = true →
            (evaluateCondition c rs cv = true ↔ lowerStr a ≠ lowerStr w)))) ∧
        (c.operator = "contains" →
          evaluateCondition c rs cv = strIncludes (lowerStr a) (lowerStr w)) ∧
        (c.operator = "not_contains" →
          evaluateCondition c rs cv = !strIncludes (lowerStr a) (lowerStr w)) ∧
        (c.operator = "in" →
          (evaluateCondition c rs cv = true ↔
            lowerStr a ∈ (splitOnChar ',' w.data).map fun v => lowerStr (trimStr ⟨v⟩))) ∧
        (∀ op, op ∈ [">", ">=", "<", "<="] → c.operator = op →
          ((jsParseFloat a).isNaNB || (jsParseFloat w).isNaNB) = true →
          evaluateCondition c rs cv = false) ∧
        ((!(jsParseFloat a).isNaNB && !(jsParseFloat w).isNaNB) = true →
          (c.operator = ">" →
            evaluateCondition c rs cv = JNum.ltB (jsParseFloat w) (jsParseFloat a)) ∧
          (c.operator = ">=" →
            evaluateCondition c rs cv = JNum.leB (jsParseFloat w) (jsParseFloat a)) ∧
          (c.operator = "<" →
            evaluateCondition c rs cv = JNum.ltB (jsParseFloat a) (jsParseFloat w)) ∧
          (c.operator = "<=" →
            evaluateCondition c rs cv = JNum.leB (jsParseFloat a) (jsParseFloat w)))) := by
  intro c rs cv
  constructor
  · intro hmiss
    unfold evaluateCondition
    rw [hmiss]
    simp
  · intro a w ha hw
    have he : evaluateCondition c rs cv = evalOp c.operator a w := by
      unfold evaluateCondition
      rw [ha, hw]
    have hnn : ∀ hb : (!(jsParseFloat a).isNaNB && !(jsParseFloat w).isNaNB) = true,
        ((jsParseFloat a).isNaNB || (jsParseFloat w).isNaNB) = false := by
      intro hb
      simp only [Bool.and_eq_true, Bool.not_eq_true'] at hb
      simp [hb.1, hb.2]
    have hflip : ∀ hb : ((jsParseFloat a).isNaNB || (jsParseFloat w).isNaNB) = true,
        (!(jsParseFloat a).isNaNB && !(jsParseFloat w).isNaNB) = false := by
      intro hb
      rw [← Bool.not_or, hb]
      rfl
    refine ⟨?_, ?_, ?_, ?_, ?_, ?_, ?_⟩
    · intro hop
      rw [he, hop]
      simp only [evalOp, String.reduceEq, reduceIte]
      constructor
      · intro hb
        rw [if_pos hb]
      · intro hb
        rw [if_neg (by simp [hflip hb])]
        simp
    · intro hop
      rw [he, hop]
      simp only [evalOp, String.reduceEq, reduceIte]
      constructor
      · intro hb
        rw [if_pos hb]
      · intro hb
        rw [if_neg (by simp [hflip hb])]
        simp
    · intro hop
      rw [he, hop]
      simp only [evalOp, String.reduceEq, reduceIte]
    · intro hop
      rw [he, hop]
      simp only [evalOp, String.reduceEq, reduceIte]
    · intro hop
      rw [he, hop]
      simp only [evalOp, String.reduceEq, reduceIte]
      simp [List.contains_iff_exists_mem_beq]
    · intro op hmem hop hnan
      simp only [List.mem_cons, List.not_mem_nil, or_false] at hmem
      have hsplit : (!(jsParseFloat a).isNaNB) = false ∨ (!(jsParseFloat w).isNaNB) = false := by
        simp only [Bool.or_eq_true] at hnan
        rcases hnan with h | h
        · left; simp [h]
        · right; simp [h]
      rcases hmem with rfl | rfl | rfl | rfl <;>
        · rw [he, hop]
          simp only [evalOp, String.reduceEq, reduceIte]
          rcases hsplit with h | h <;> simp [h]
    · intro hb
      simp only [Bool.and_eq_true] at hb
      refine ⟨?_, ?_, ?_, ?_⟩ <;>
        · intro hop
          rw [he, hop]
          simp only [evalOp, String.reduceEq, reduceIte]
          simp [hb.1, hb.2]

/-- Closed instance of `theorem_C3_condition_semantics`: `"5" > "3"` holds by
numeric coercion, and a missing answer satisfies only `!=`. -/
theorem theorem_C3_witness :
    evaluateCondition ⟨"q", ">", "3", none, none, none⟩ [⟨"q", RVal.rstr "5"⟩] none = true ∧
    evaluateCondition ⟨"q", "!=", "x", none, none, none⟩ [] none = true := by
  constructor
  · have h := ((theorem_C3_condition_semantics ⟨"q", ">", "3", none, none, none⟩
      [⟨"q", RVal.rstr "5"⟩] none).2 "5" "3" (by decide) (by decide)).2.2.2.2.2.2
      (by decide)
    rw [h.1 rfl]
    decide
  · exact ((theorem_C3_condition_semantics ⟨"q", "!=", "x", none, none, none⟩ [] none).1
      (by decide)).mpr rfl

theorem insertRule_perm (r : SelectionRule) (l : List SelectionRule) :
    (insertRule r l).Perm (r :: l) := by
  induction l with
  | nil => simp [insertRule]
  | cons x xs ih =>
    unfold insertRule
    by_cases h : r.priority < x.priority
    · rw [if_pos h]
    · rw [if_neg h]
      exact (ih.cons x).trans (List.Perm.swap r x xs)

theorem sortRules_perm (l : List SelectionRule) : (sortRules l).Perm l := by
  induction l with
  | nil => simp [sortRules]
  | cons r rs ih =>
    exact (insertRule_perm r (sortRules rs)).trans (ih.cons r)

theorem perm_any {α : Type} {l₁ l₂ : List α} (p : α → Bool) (h : l₁.Perm l₂) :
    l₁.any p = l₂.any p := by
  cases ha : l₁.any p
  · cases hb : l₂.any p
    · rfl
    · exfalso
      obtain ⟨x, hx, hpx⟩ := List.any_eq_true.mp hb
      have : l₁.any p = true := List.any_eq_true.mpr ⟨x, (h.mem_iff).mpr hx, hpx⟩
      rw [ha] at this
      cases this
  · obtain ⟨x, hx, hpx⟩ := List.any_eq_true.mp ha
    exact (List.any_eq_true.mpr ⟨x, (h.mem_iff).mp hx, hpx⟩).symm

theorem matched_foldl_eq_countP (rs : List SurveyResponse)
    (cv : Option (List (String × CVal))) (l : List SelectionRule) (n : Nat) :
    l.foldl (fun n rule =>
      if rule.conditions = [] then n
      else if conditionsMet rule rs cv then n + 1 else n) n
    = n + l.countP (fun r => !r.conditions.isEmpty && conditionsMet r rs cv) := by
  induction l generalizing n with
  | nil => simp
  | cons r tl ih =>
    simp only [List.foldl_cons, List.countP_cons]
    by_cases h1 : r.conditions = []
    · rw [if_pos h1, ih]
      simp [h1]
    · rw [if_neg h1]
      by_cases h2 : conditionsMet r rs cv = true
      · rw [if_pos h2, ih]
        have : r.conditions.isEmpty = false := by
          simpa [List.isEmpty_iff] using h1
        simp [this, h2]
        omega
      · rw [if_neg h2, ih]
        simp [Bool.eq_false_iff.mpr h2]

theorem evaluateRules_eq_spec (t : Template) (rs : List SurveyResponse)
    (cv : Option (List (String × CVal))) :
    evaluateRules t rs cv = evalRulesSpec t.id t.rules rs cv := by
  unfold evaluateRules evalRulesSpec
  by_cases h1 : t.rules = []
  · simp [h1]
  · rw [if_neg h1, if_neg h1]
    by_cases h2 : t.rules.any (·.isAlwaysInclude) = true
    · rw [if_pos h2, if_pos h2]
    · rw [if_neg h2, if_neg h2]
      by_cases h3 : t.rules.any (·.isManualOnly) = true
      · rw [if_pos h3, if_pos h3]
      · rw [if_neg h3, if_neg h3]
        have hm := matched_foldl_eq_countP rs cv (sortRules t.rules) 0
        simp only [hm, Nat.zero_add, (sortRules_perm t.rules).countP_eq,
          ← List.countP_eq_length_filter]

/-- C2: semantics of `evaluateRules`.  No rules → score 0 with both flags
clear; any `isAlwaysInclude` rule → score 1 with the always flag, regardless
of other rules; otherwise any `isManualOnly` rule → score 0 with the
manual-only flag; otherwise a rule with conditions matches iff its conditions
combined under its logical operator hold (`conditionsMet`: OR = at least one
condition true, anything else = every condition true) and the score is
matched rules over total rules-with-conditions (0 when there are none). -/
theorem theorem_C2_rule_scorer :
    ∀ (t : Template) (rs : List SurveyResponse) (cv : Option (List (String × CVal))),
      (t.rules = [] → evaluateRules t rs cv = ⟨t.id, 0, 0, 0, false, false⟩) ∧
      (t.rules.any (·.isAlwaysInclude) = true →
        evaluateRules t rs cv = ⟨t.id, 1, t.rules.length, t.rules.length, true, false⟩) ∧
      (t.rules.any (·.isAlwaysInclude) = false → t.rules.any (·.isManualOnly) = true →
        evaluateRules t rs cv = ⟨t.id, 0, 0, t.rules.length, false, true⟩) ∧
      (t.rules.any (·.isAlwaysInclude) = false → t.rules.any (·.isManualOnly) = false →
        evaluateRules t rs cv =
          ⟨t.id,
           if 0 < t.rules.countP (fun r => !r.conditions.isEmpty) then
             (t.rules.countP (fun r => !r.conditions.isEmpty && conditionsMet r rs cv) : ℚ) /
               (t.rules.countP (fun r => !r.conditions.isEmpty) : ℚ)
           else 0,
           t.rules.countP (fun r => !r.conditions.isEmpty && conditionsMet r rs cv),
           t.rules.countP (fun r => !r.conditions.isEmpty),
           false, false⟩) := by
  intro t rs cv
  rw [evaluateRules_eq_spec]
  refine ⟨?_, ?_, ?_, ?_⟩
  · intro h
    simp [evalRulesSpec, h]
  · intro h
    have hne : t.rules ≠ [] := by
      intro hnil
      rw [hnil] at h
      cases h
    unfold evalRulesSpec
    rw [if_neg hne, if_pos h]
  · intro h1 h2
    have hne : t.rules ≠ [] := by
      intro hnil
      rw [hnil] at h2
      cases h2
    unfold evalRulesSpec
    rw [if_neg hne, if_neg (by simp [h1]), if_pos h2]
  · intro h1 h2
    by_cases hne : t.rules = []
    · simp [evalRulesSpec, hne]
    · unfold evalRulesSpec
      rw [if_neg hne, if_neg (by simp [h1]), if_neg (by simp [h2])]

/-- Closed instance of `theorem_C2_rule_scorer`: one of two condition-bearing
rules matches, so 1 rule is counted out of 2. -/
theorem theorem_C2_witness :
    (evaluateRules
      ⟨"t", "n", "d",
        [⟨[⟨"q", "==", "x", none, none, none⟩], none, 1, false, false⟩,
         ⟨[⟨"q", "==", "y", none, none, none⟩], none, 2, false, false⟩], true⟩
      [⟨"q", RVal.rstr "x"⟩] none).matchedRules = 1 ∧
    (evaluateRules
      ⟨"t", "n", "d",
        [⟨[⟨"q", "==", "x", none, none, none⟩], none, 1, false, false⟩,
         ⟨[⟨"q", "==", "y", none, none, none⟩], none, 2, false, false⟩], true⟩
      [⟨"q", RVal.rstr "x"⟩] none).totalRules = 2 := by
  have h := (theorem_C2_rule_scorer
    ⟨"t", "n", "d",
      [⟨[⟨"q", "==", "x", none, none, none⟩], none, 1, false, false⟩,
       ⟨[⟨"q", "==", "y", none, none, none⟩], none, 2, false, false⟩], true⟩
    [⟨"q", RVal.rstr "x"⟩] none).2.2.2 (by decide) (by decide)
  rw [h]
  constructor
  · decide
  · decide

theorem any_congr_fun {α : Type} (l : List α) (p q : α → Bool) (h : ∀ a, p a = q a) :
    l.any p = l.any q := by
  induction l with
  | nil => rfl
  | cons a tl ih => simp [h a, ih]

theorem countP_strip_invariant {rules₁ rules₂ : List SelectionRule}
    (h : (rules₁.map stripPriority).Perm (rules₂.map stripPriority))
    (p : SelectionRule → Bool) (hp : ∀ r, p (stripPriority r) = p r) :
    rules₁.countP p = rules₂.countP p := by
  have e1 : ∀ l : List SelectionRule, (l.map stripPriority).countP p = l.countP p := by
    intro l
    rw [List.countP_map]
    apply List.countP_congr
    intro a _
    simp only [Function.comp_apply, hp a]
  rw [← e1 rules₁, ← e1 rules₂, h.countP_eq]

theorem any_strip_invariant {rules₁ rules₂ : List SelectionRule}
    (h : (rules₁.map stripPriority).Perm (rules₂.map stripPriority))
    (p : SelectionRule → Bool) (hp : ∀ r, p (stripPriority r) = p r) :
    rules₁.any p = rules₂.any p := by
  have e1 : ∀ l : List SelectionRule, (l.map stripPriority).any p = l.any p := by
    intro l
    rw [List.any_map]
    exact any_congr_fun _ _ _ fun a => by simp only [Function.comp_apply, hp a]
  rw [← e1 rules₁, ← e1 rules₂, perm_any p h]

/-- C9: the result of `evaluateRules` is invariant under any reassignment of
rule priorities together with any permutation of the rule list — two rule
lists whose priority-stripped multisets agree produce identical evaluation
results (score, counts and flags); the priority sort only changes evaluation
order. -/
theorem theorem_C9_priority_no_op :
    ∀ (rs : List SurveyResponse) (cv : Option (List (String × CVal)))
      (tid nm dn : String) (act : Bool) (rules₁ rules₂ : List SelectionRule),
      (rules₁.map stripPriority).Perm (rules₂.map stripPriority) →
      evaluateRules ⟨tid, nm, dn, rules₁, act⟩ rs cv =
        evaluateRules ⟨tid, nm, dn, rules₂, act⟩ rs cv := by
  intro rs cv tid nm dn act rules₁ rules₂ h
  rw [evaluateRules_eq_spec, evaluateRules_eq_spec]
  have hlen : rules₁.length = rules₂.length := by
    have := h.length_eq
    simpa using this
  have hnil : (rules₁ = []) ↔ (rules₂ = []) := by
    rw [← List.length_eq_zero, ← List.length_eq_zero, hlen]
  have halways : rules₁.any (·.isAlwaysInclude) = rules₂.any (·.isAlwaysInclude) :=
    any_strip_invariant h _ fun r => rfl
  have hmanual : rules₁.any (·.isManualOnly) = rules₂.any (·.isManualOnly) :=
    any_strip_invariant h _ fun r => rfl
  have hmatched :
      rules₁.countP (fun r => !r.conditions.isEmpty && conditionsMet r rs cv) =
      rules₂.countP (fun r => !r.conditions.isEmpty && conditionsMet r rs cv) :=
    countP_strip_invariant h _ fun r => rfl
  have htotal :
      rules₁.countP (fun r => !r.conditions.isEmpty) =
      rules₂.countP (fun r => !r.conditions.isEmpty) :=
    countP_strip_invariant h _ fun r => rfl
  unfold evalRulesSpec
  by_cases h1 : rules₁ = []
  · rw [if_pos h1, if_pos (hnil.mp h1)]
  · rw [if_neg h1, if_neg (fun hh => h1 (hnil.mpr hh)), halways, hmanual, hlen,
      hmatched, htotal]

/-- Closed instance of `theorem_C9_priority_no_op`: swapping two rules and
renumbering their priorities leaves the evaluation unchanged. -/
theorem theorem_C9_witness :
    evaluateRules
      ⟨"t", "n", "d",
        [⟨[⟨"q", "==", "x", none, none, none⟩], none, 1, false, false⟩,
         ⟨[⟨"q", "==", "y", none, none, none⟩], none, 2, false, false⟩], true⟩
      [⟨"q", RVal.rstr "x"⟩] none =
    evaluateRules
      ⟨"t", "n", "d",
        [⟨[⟨"q", "==", "y", none, none, none⟩], none, 7, false, false⟩,
         ⟨[⟨"q", "==", "x", none, none, none⟩], none, 9, false, false⟩], true⟩
      [⟨"q", RVal.rstr "x"⟩] none := by
  apply theorem_C9_priority_no_op
  have : ([⟨[⟨"q", "==", "x", none, none, none⟩], none, 1, false, false⟩,
      ⟨[⟨"q", "==", "y", none, none, none⟩], none, 2, false, false⟩] :
        List SelectionRule).map stripPriority =
      [⟨[⟨"q", "==", "x", none, none, none⟩], none, 0, false, false⟩,
       ⟨[⟨"q", "==", "y", none, none, none⟩], none, 0, false, false⟩] := by decide
  rw [this]
  have : ([⟨[⟨"q", "==", "y", none, none, none⟩], none, 7, false, false⟩,
      ⟨[⟨"q", "==", "x", none, none, none⟩], none, 9, false, false⟩] :
        List SelectionRule).map stripPriority =
      [⟨[⟨"q", "==", "y", none, none, none⟩], none, 0, false, false⟩,
       ⟨[⟨"q", "==", "x", none, none, none⟩], none, 0, false, false⟩] := by decide
  rw [this]
  exact List.Perm.swap _ _ _

theorem evalRules_manual_score (t : Template) (rs : List SurveyResponse)
    (cv : Option (List (String × CVal)))
    (h : (evaluateRules t rs cv).isManualOnly = true) :
    (evaluateRules t rs cv).score = 0 := by
  rw [evaluateRules_eq_spec] at h ⊢
  unfold evalRulesSpec at h ⊢
  split_ifs at h ⊢
  all_goals simp_all

theorem evalRules_total_zero_score (t : Template) (rs : List SurveyResponse)
    (cv : Option (List (String × CVal)))
    (h : (evaluateRules t rs cv).totalRules = 0)
    (ha : (evaluateRules t rs cv).isAlwaysInclude = false) :
    (evaluateRules t rs cv).score = 0 := by
  rw [evaluateRules_eq_spec] at h ha ⊢
  unfold evalRulesSpec at h ha ⊢
  split_ifs at h ha ⊢
  all_goals simp_all

theorem evalRules_always_score (t : Template) (rs : List SurveyResponse)
    (cv : Option (List (String × CVal)))
    (h : (evaluateRules t rs cv).isAlwaysInclude = true) :
    (evaluateRules t rs cv).score = 1 := by
  rw [evaluateRules_eq_spec] at h ⊢
  unfold evalRulesSpec at h ⊢
  split_ifs at h ⊢
  all_goals simp_all

theorem selectFold_spec (rs : List SurveyResponse)
    (cv : Option (List (String × CVal))) (l : List Template)
    (a b c : List Template) :
    l.foldl (selectStep rs cv) (a, b, c) =
      (a ++ l.filter (predRequired rs cv), b ++ l.filter (predSuggested rs cv),
       c ++ l.filter (predOptional rs cv)) := by
  induction l generalizing a b c with
  | nil => simp
  | cons t tl ih =>
    simp only [List.foldl_cons, List.filter_cons]
    have hstep : ∀ a' b' c',
        selectStep rs cv (a', b', c') t =
          (if predRequired rs cv t then a' ++ [t] else a',
           if predSuggested rs cv t then b' ++ [t] else b',
           if predOptional rs cv t then c' ++ [t] else c') := by
      intro a' b' c'
      by_cases h1 : (evaluateRules t rs cv).isAlwaysInclude = true
      · simp [selectStep, predRequired, predSuggested, predOptional, h1]
      · simp only [Bool.not_eq_true] at h1
        by_cases h2 : (evaluateRules t rs cv).isManualOnly = true
        · simp [selectStep, predRequired, predSuggested, predOptional, h1, h2]
        · simp only [Bool.not_eq_true] at h2
          by_cases h3 : (evaluateRules t rs cv).totalRules = 0
          · simp [selectStep, predRequired, predSuggested, predOptional, h1, h2, h3]
          · by_cases h4 : 1 ≤ (evaluateRules t rs cv).score
            · simp [selectStep, predRequired, predSuggested, predOptional, h1, h2, h3, h4]
            · by_cases h5 : (2⁻¹ : ℚ) < (evaluateRules t rs cv).score
              · simp [selectStep, predRequired, predSuggested, predOptional,
                  h1, h2, h3, h4, h5]
              · simp [selectStep, predRequired, predSuggested, predOptional,
                  h1, h2, h3, h4, h5]
    rw [hstep, ih]
    by_cases hr : predRequired rs cv t = true <;>
      by_cases hs : predSuggested rs cv t = true <;>
        by_cases ho : predOptional rs cv t = true <;>
          simp [hr, hs, ho]

theorem mem_insertTemplate (t x : Template) (l : List Template) :
    x ∈ insertTemplate t l ↔ x = t ∨ x ∈ l := by
  induction l with
  | nil => simp [insertTemplate]
  | cons y ys ih =>
    unfold insertTemplate
    by_cases h : nameKey t < nameKey y
    · rw [if_pos h]
      simp
    · rw [if_neg h]
      simp [ih]
      tauto

theorem mem_sortTemplates (x : Template) (l : List Template) :
    x ∈ sortTemplates l ↔ x ∈ l := by
  induction l with
  | nil => simp [sortTemplates]
  | cons y ys ih =>
    unfold sortTemplates
    rw [mem_insertTemplate]
    simp [ih]

theorem predRequired_iff (rs : List SurveyResponse)
    (cv : Option (List (String × CVal))) (t : Template) :
    predRequired rs cv t = true ↔
      ((evaluateRules t rs cv).isAlwaysInclude = true ∨
        1 ≤ (evaluateRules t rs cv).score) := by
  unfold predRequired
  simp only [Bool.or_eq_true, Bool.and_eq_true, Bool.not_eq_true', decide_eq_true_eq,
    Bool.not_eq_true, decide_eq_false_iff_not]
  constructor
  · rintro (h | ⟨⟨hm, ht⟩, hs⟩)
    · left; exact h
    · right; exact hs
  · rintro (h | hs)
    · left; exact h
    · by_cases ha : (evaluateRules t rs cv).isAlwaysInclude = true
      · left; exact ha
      · right
        have ha' : (evaluateRules t rs cv).isAlwaysInclude = false := by
          simpa using ha
        refine ⟨⟨?_, ?_⟩, hs⟩
        · by_cases hm : (evaluateRules t rs cv).isManualOnly = true
          · exfalso
            have h0 := evalRules_manual_score t rs cv hm
            rw [h0] at hs
            norm_num at hs
          · simpa using hm
        · intro ht
          have h0 := evalRules_total_zero_score t rs cv ht ha'
          rw [h0] at hs
          norm_num at hs

theorem predSuggested_iff (rs : List SurveyResponse)
    (cv : Option (List (String × CVal))) (t : Template) :
    predSuggested rs cv t = true ↔
      ((evaluateRules t rs cv).isAlwaysInclude = false ∧
       1/2 < (evaluateRules t rs cv).score ∧ (evaluateRules t rs cv).score < 1) := by
  unfold predSuggested
  simp only [Bool.and_eq_true, Bool.not_eq_true', decide_eq_true_eq,
    Bool.not_eq_true, decide_eq_false_iff_not]
  constructor
  · rintro ⟨⟨⟨⟨ha, hm⟩, ht⟩, hs1⟩, hs2⟩
    refine ⟨ha, by linarith [hs2], by linarith [not_le.mp hs1]⟩
  · rintro ⟨ha, h2, h1⟩
    have hm : (evaluateRules t rs cv).isManualOnly = false := by
      by_cases hm : (evaluateRules t rs cv).isManualOnly = true
      · exfalso
        have h0 := evalRules_manual_score t rs cv hm
        rw [h0] at h2
        norm_num at h2
      · simpa using hm
    have ht : ¬(evaluateRules t rs cv).totalRules = 0 := by
      intro ht
      have h0 := evalRules_total_zero_score t rs cv ht ha
      rw [h0] at h2
      norm_num at h2
    exact ⟨⟨⟨⟨ha, hm⟩, ht⟩, by linarith⟩, by linarith⟩

theorem predOptional_iff (rs : List SurveyResponse)
    (cv : Option (List (String × CVal))) (t : Template) :
    predOptional rs cv t = true ↔
      ((evaluateRules t rs cv).isAlwaysInclude = false ∧
       (evaluateRules t rs cv).score ≤ 1/2) := by
  unfold predOptional
  simp only [Bool.and_eq_true, Bool.not_eq_true']
  rw [← Bool.not_eq_true (predRequired rs cv t), ← Bool.not_eq_true (predSuggested rs cv t)]
  constructor
  · rintro ⟨hr, hs⟩
    rw [predRequired_iff] at hr
    rw [predSuggested_iff] at hs
    push_neg at hr
    obtain ⟨ha, hs1⟩ := hr
    have ha' : (evaluateRules t rs cv).isAlwaysInclude = false := by
      cases hb : (evaluateRules t rs cv).isAlwaysInclude
      · rfl
      · exact absurd hb ha
    refine ⟨ha', ?_⟩
    by_contra hgt
    push_neg at hgt
    exact hs ⟨ha', hgt, hs1⟩
  · rintro ⟨ha, hle⟩
    constructor
    · rw [predRequired_iff]
      push_neg
      exact ⟨by simp [ha], by linarith⟩
    · rw [predSuggested_iff]
      push_neg
      intro _ h2
      linarith

/-- C1: `selectTemplates` drops inactive templates and partitions the active
ones by their rule evaluation: `required` holds exactly the active templates
whose evaluation is always-include or has score ≥ 1; `suggested` exactly
those with 0.5 < score < 1 (and not always-include); `optional` everything
else (score ≤ 0.5, which covers manual-only, rule-less, and in particular an
exact 50% match — the comparison is strict `>`). -/
theorem theorem_C1_template_partition :
    ∀ (rs : List SurveyResponse) (templates : List Template)
      (cv : Option (List (String × CVal))) (t : Template),
      (t ∈ (selectTemplates rs templates cv).required ↔
        t ∈ templates ∧ t.isActive = true ∧
        ((evaluateRules t rs cv).isAlwaysInclude = true ∨
          1 ≤ (evaluateRules t rs cv).score)) ∧
      (t ∈ (selectTemplates rs templates cv).suggested ↔
        t ∈ templates ∧ t.isActive = true ∧
        ((evaluateRules t rs cv).isAlwaysInclude = false ∧
         1/2 < (evaluateRules t rs cv).score ∧ (evaluateRules t rs cv).score < 1)) ∧
      (t ∈ (selectTemplates rs templates cv).optional ↔
        t ∈ templates ∧ t.isActive = true ∧
        ((evaluateRules t rs cv).isAlwaysInclude = false ∧
         (evaluateRules t rs cv).score ≤ 1/2)) := by
  intro rs templates cv t
  simp only [selectTemplates, selectFold_spec, List.nil_append]
  refine ⟨?_, ?_, ?_⟩
  · rw [mem_sortTemplates, List.mem_filter, List.mem_filter, predRequired_iff]
    tauto
  · rw [mem_sortTemplates, List.mem_filter, List.mem_filter, predSuggested_iff]
    tauto
  · rw [mem_sortTemplates, List.mem_filter, List.mem_filter, predOptional_iff]
    tauto

/-- Closed instance of `theorem_C1_template_partition`: a template matching
exactly 1 of its 2 condition-bearing rules (score exactly 0.5) lands in
`optional`. -/
theorem theorem_C1_witness :
    (⟨"t", "n", "d",
      [⟨[⟨"q", "==", "x", none, none, none⟩], none, 1, false, false⟩,
       ⟨[⟨"q", "==", "y", none, none, none⟩], none, 2, false, false⟩], true⟩ : Template) ∈
    (selectTemplates [⟨"q", RVal.rstr "x"⟩]
      [⟨"t", "n", "d",
        [⟨[⟨"q", "==", "x", none, none, none⟩], none, 1, false, false⟩,
         ⟨[⟨"q", "==", "y", none, none, none⟩], none, 2, false, false⟩], true⟩]
      none).optional := by
  apply ((theorem_C1_template_partition [⟨"q", RVal.rstr "x"⟩] _ none _).2.2).mpr
  refine ⟨by simp, rfl, by decide, ?_⟩
  rw [evaluateRules_eq_spec]
  unfold evalRulesSpec
  rw [if_neg (by decide), if_neg (by decide), if_neg (by decide)]
  dsimp only
  rw [show List.countP (fun r => !r.conditions.isEmpty)
      ([⟨[⟨"q", "==", "x", none, none, none⟩], none, 1, false, false⟩,
        ⟨[⟨"q", "==", "y", none, none, none⟩], none, 2, false, false⟩] :
          List SelectionRule) = 2 from by decide,
    show List.countP (fun r => !r.conditions.isEmpty &&
        conditionsMet r [⟨"q", RVal.rstr "x"⟩] none)
      ([⟨[⟨"q", "==", "x", none, none, none⟩], none, 1, false, false⟩,
        ⟨[⟨"q", "==", "y", none, none, none⟩], none, 2, false, false⟩] :
          List SelectionRule) = 1 from by decide]
  norm_num

theorem setIfFalsy_isSome (k : String) (s : String) (j : String)
    (m : List (String × VVal)) (h : (getKey j m).isSome) :
    (getKey j (setIfFalsy k s m)).isSome := by
  unfold setIfFalsy
  split
  · exact h
  · exact getKey_setKey_isSome _ _ _ _ h

theorem setIfFalsy_self_isSome (k : String) (s : String) (m : List (String × VVal)) :
    (getKey k (setIfFalsy k s m)).isSome := by
  unfold setIfFalsy
  split
  · rename_i h
    unfold vTruthy at h
    cases hk : getKey k m with
    | none => rw [hk] at h; cases h
    | some w => simp [hk]
  · rw [getKey_setKey_same]
    rfl

theorem setIfFalsy_preserve_same (k s : String) (j : String) (m : List (String × VVal))
    (h : getKey j m = some (VVal.vstr s)) :
    getKey j (setIfFalsy k s m) = some (VVal.vstr s) := by
  by_cases hkj : k = j
  · subst hkj
    unfold setIfFalsy
    split
    · exact h
    · rw [getKey_setKey_same]
  · unfold setIfFalsy
    split
    · exact h
    · rw [getKey_setKey_ne _ _ hkj]
      exact h

theorem setIfFalsy_preserve_truthy (k s : String) (j : String) (m : List (String × VVal))
    (w : VVal) (h : getKey j m = some w) (hw : vTruthy (some w) = true) :
    getKey j (setIfFalsy k s m) = some w := by
  by_cases hkj : k = j
  · subst hkj
    unfold setIfFalsy
    rw [h, if_pos hw]
    exact h
  · unfold setIfFalsy
    split
    · exact h
    · rw [getKey_setKey_ne _ _ hkj]
      exact h

theorem ccvStep_isSome (res : List (String × VVal)) (e : String × VVal) (j : String)
    (h : (getKey j res).isSome) : (getKey j (ccvStep res e)).isSome := by
  rcases e with ⟨k, v⟩
  cases v with
  | varr a => exact getKey_setKey_isSome _ _ _ _ h
  | vstr s =>
    apply setIfFalsy_isSome
    apply setIfFalsy_isSome
    apply setIfFalsy_isSome
    apply setIfFalsy_isSome
    exact getKey_setKey_isSome _ _ _ _ h

theorem ccvStep_own_str (res : List (String × VVal)) (k s : String) :
    getKey k (ccvStep res (k, VVal.vstr s)) = some (VVal.vstr s) := by
  apply setIfFalsy_preserve_same
  apply setIfFalsy_preserve_same
  apply setIfFalsy_preserve_same
  apply setIfFalsy_preserve_same
  rw [getKey_setKey_same]

theorem ccvStep_variants_isSome (res : List (String × VVal)) (k s : String) :
    (getKey (lowerStr k) (ccvStep res (k, VVal.vstr s))).isSome ∧
    (getKey (upperStr k) (ccvStep res (k, VVal.vstr s))).isSome ∧
    (getKey (capFirst k) (ccvStep res (k, VVal.vstr s))).isSome ∧
    (getKey (uncapFirst k) (ccvStep res (k, VVal.vstr s))).isSome := by
  refine ⟨?_, ?_, ?_, ?_⟩
  · apply setIfFalsy_isSome
    apply setIfFalsy_isSome
    apply setIfFalsy_isSome
    exact setIfFalsy_self_isSome _ _ _
  · apply setIfFalsy_isSome
    apply setIfFalsy_isSome
    exact setIfFalsy_self_isSome _ _ _
  · apply setIfFalsy_isSome
    exact setIfFalsy_self_isSome _ _ _
  · exact setIfFalsy_self_isSome _ _ _

theorem ccvStep_preserve_truthy (res : List (String × VVal)) (e : String × VVal)
    (j : String) (w : VVal) (hj : getKey j res = some w) (hw : vTruthy (some w) = true)
    (hne : e.1 ≠ j) : getKey j (ccvStep res e) = some w := by
  rcases e with ⟨k, v⟩
  cases v with
  | varr a =>
    unfold ccvStep
    rw [getKey_setKey_ne _ _ hne]
    exact hj
  | vstr s =>
    apply setIfFalsy_preserve_truthy _ _ _ _ _ ?_ hw
    apply setIfFalsy_preserve_truthy _ _ _ _ _ ?_ hw
    apply setIfFalsy_preserve_truthy _ _ _ _ _ ?_ hw
    apply setIfFalsy_preserve_truthy _ _ _ _ _ ?_ hw
    rw [getKey_setKey_ne _ _ hne]
    exact hj

theorem ccvFold_isSome (l : List (String × VVal)) (res : List (String × VVal))
    (j : String) (h : (getKey j res).isSome) :
    (getKey j (l.foldl ccvStep res)).isSome := by
  induction l generalizing res with
  | nil => exact h
  | cons e tl ih =>
    simp only [List.foldl_cons]
    exact ih _ (ccvStep_isSome res e j h)

theorem ccvFold_preserve_truthy (l : List (String × VVal)) (res : List (String × VVal))
    (j : String) (w : VVal) (hj : getKey j res = some w) (hw : vTruthy (some w) = true)
    (hl : ∀ e ∈ l, e.1 ≠ j) : getKey j (l.foldl ccvStep res) = some w := by
  induction l generalizing res with
  | nil => exact hj
  | cons e tl ih =>
    simp only [List.foldl_cons]
    exact ih _ (ccvStep_preserve_truthy res e j w hj hw (hl e (List.mem_cons_self e tl)))
      fun e' he' => hl e' (List.mem_cons_of_mem e he')

/-- C8 counterexample: the claim says an existing binding is never
overwritten by an alias, but the alias write uses a falsiness test
(`if (!result[key])`), so an existing binding whose value is the empty
string *is* overwritten: with input `\x7bA: "", a: "x"\x7d` the binding
`A ↦ ""` ends up as `A ↦ "x"`, written by the upper-case alias expansion of
key `a`. -/
theorem theorem_C8_counterexample :
    getKey "A" (createCaseVariations [("A", VVal.vstr ""), ("a", VVal.vstr "x")]) =
      some (VVal.vstr "x") ∧
    some (VVal.vstr "x") ≠ some (VVal.vstr "") := by
  constructor
  · decide
  · decide

/-- C8 (amended): for every *input* key `k` of `createCaseVariations` (keys
unique, as for a JavaScript object): if `k` is string-valued, the four case
variants of `k` (and `k` itself) are present in the result; a binding whose
value is a non-empty string survives to the output unchanged (aliases never
overwrite truthy values — only empty-string bindings can be overwritten, see
the counterexample); array values pass through unchanged, and an array-valued
key alone produces no alias keys at all. -/
theorem theorem_C8_amended :
    ∀ m : List (String × VVal), (m.map Prod.fst).Nodup →
      (∀ k v, (k, VVal.vstr v) ∈ m →
        ((getKey k (createCaseVariations m)).isSome ∧
         (getKey (lowerStr k) (createCaseVariations m)).isSome ∧
         (getKey (upperStr k) (createCaseVariations m)).isSome ∧
         (getKey (capFirst k) (createCaseVariations m)).isSome ∧
         (getKey (uncapFirst k) (createCaseVariations m)).isSome)) ∧
      (∀ k v, (k, VVal.vstr v) ∈ m → v ≠ "" →
        getKey k (createCaseVariations m) = some (VVal.vstr v)) ∧
      (∀ k a, (k, VVal.varr a) ∈ m →
        getKey k (createCaseVariations m) = some (VVal.varr a)) ∧
      (∀ k a, createCaseVariations [(k, VVal.varr a)] = [(k, VVal.varr a)]) := by
  intro m hnodup
  have hsplit : ∀ (k : String) (v : VVal), (k, v) ∈ m →
      ∃ l₁ l₂, m = l₁ ++ (k, v) :: l₂ ∧ ∀ e ∈ l₂, e.1 ≠ k := by
    intro k v hmem
    obtain ⟨l₁, l₂, rfl⟩ := List.append_of_mem hmem
    refine ⟨l₁, l₂, rfl, ?_⟩
    intro e he
    have hmap : (l₁ ++ (k, v) :: l₂).map Prod.fst =
        l₁.map Prod.fst ++ k :: l₂.map Prod.fst := by
      simp
    rw [hmap] at hnodup
    have h2 := hnodup.of_append_right
    rw [List.nodup_cons] at h2
    intro hek
    exact h2.1 (hek ▸ List.mem_map_of_mem Prod.fst he)
  refine ⟨?_, ?_, ?_, ?_⟩
  · intro k v hmem
    obtain ⟨l₁, l₂, rfl, _⟩ := hsplit k (VVal.vstr v) hmem
    unfold createCaseVariations
    rw [List.foldl_append, List.foldl_cons]
    have hvar := ccvStep_variants_isSome (l₁.foldl ccvStep []) k v
    refine ⟨?_, ?_, ?_, ?_, ?_⟩
    · exact ccvFold_isSome _ _ _ (by rw [ccvStep_own_str]; rfl)
    · exact ccvFold_isSome _ _ _ hvar.1
    · exact ccvFold_isSome _ _ _ hvar.2.1
    · exact ccvFold_isSome _ _ _ hvar.2.2.1
    · exact ccvFold_isSome _ _ _ hvar.2.2.2
  · intro k v hmem hv
    obtain ⟨l₁, l₂, rfl, hl₂⟩ := hsplit k (VVal.vstr v) hmem
    unfold createCaseVariations
    rw [List.foldl_append, List.foldl_cons]
    apply ccvFold_preserve_truthy _ _ _ _ (ccvStep_own_str _ k v) (by simpa [vTruthy]) hl₂
  · intro k a hmem
    obtain ⟨l₁, l₂, rfl, hl₂⟩ := hsplit k (VVal.varr a) hmem
    unfold createCaseVariations
    rw [List.foldl_append, List.foldl_cons]
    apply ccvFold_preserve_truthy _ _ _ _ ?_ (by simp [vTruthy]) hl₂
    unfold ccvStep
    rw [getKey_setKey_same]
  · intro k a
    rfl

/-- Closed instance of `theorem_C8_amended` at a concrete two-key map. -/
theorem theorem_C8_witness :
    getKey "companyName"
        (createCaseVariations [("companyName", VVal.vstr "Acme"), ("other", VVal.vstr "z")]) =
      some (VVal.vstr "Acme") ∧
    (getKey "COMPANYNAME"
        (createCaseVariations
          [("companyName", VVal.vstr "Acme"), ("other", VVal.vstr "z")])).isSome = true := by
  constructor
  · exact (theorem_C8_amended [("companyName", VVal.vstr "Acme"), ("other", VVal.vstr "z")]
      (by decide)).2.1 "companyName" "Acme" (by decide) (by decide)
  · have h := ((theorem_C8_amended
      [("companyName", VVal.vstr "Acme"), ("other", VVal.vstr "z")]
      (by decide)).1 "companyName" "Acme" (by decide)).2.2.1
    rw [show upperStr "companyName" = "COMPANYNAME" from by decide] at h
    exact h

theorem daysFromCivil_linear (y : Int) (m : Nat) (d : Int) :
    daysFromCivil y m d = daysFromCivil y m 0 + d := by
  simp only [daysFromCivil]
  ring

theorem monthLen_ge (y : Int) (m : Nat) : 28 ≤ monthLen y m := by
  unfold monthLen
  split <;> (try split) <;> norm_num

theorem exists_weekday (y : Int) (m : Nat) (d : Nat) (hd : 3 ≤ d) :
    ∃ e : Nat, 1 ≤ e ∧ e ≤ d ∧ isWeekendB y m (e : Int) = false := by
  by_contra hcon
  push_neg at hcon
  have hw : ∀ e : Nat, 1 ≤ e → e ≤ d → isWeekendB y m (e : Int) = true := by
    intro e h1 h2
    have := hcon e h1 h2
    cases hb : isWeekendB y m (e : Int)
    · exact absurd hb this
    · rfl
  have key : ∀ e : Nat, 1 ≤ e → e ≤ d →
      (daysFromCivil y m 0 + e + 4) % 7 = 0 ∨ (daysFromCivil y m 0 + e + 4) % 7 = 6 := by
    intro e h1 h2
    have hb := hw e h1 h2
    unfold isWeekendB weekday at hb
    rw [daysFromCivil_linear] at hb
    simpa using hb
  have k1 := key d (by omega) (by omega)
  have k2 := key (d - 1) (by omega) (by omega)
  have k3 := key (d - 2) (by omega) (by omega)
  have hc1 : ((d - 1 : Nat) : Int) = (d : Int) - 1 := by omega
  have hc2 : ((d - 2 : Nat) : Int) = (d : Int) - 2 := by omega
  rw [hc1] at k2
  rw [hc2] at k3
  omega

theorem lastBizWalk_le (y : Int) (m : Nat) (d : Nat) : lastBizWalk y m d ≤ d := by
  induction d with
  | zero => simp [lastBizWalk]
  | succ d ih =>
    unfold lastBizWalk
    split
    · omega
    · omega

theorem lastBizWalk_spec (y : Int) (m : Nat) (d : Nat)
    (hex : ∃ e : Nat, 1 ≤ e ∧ e ≤ d ∧ isWeekendB y m (e : Int) = false) :
    1 ≤ lastBizWalk y m d ∧
    isWeekendB y m ((lastBizWalk y m d : Nat) : Int) = false ∧
    ∀ e : Nat, lastBizWalk y m d < e → e ≤ d → isWeekendB y m (e : Int) = true := by
  induction d with
  | zero =>
    obtain ⟨e, h1, h2, _⟩ := hex
    omega
  | succ d ih =>
    unfold lastBizWalk
    by_cases hw : isWeekendB y m ((d : Int) + 1) = true
    · rw [if_pos hw]
      have hex' : ∃ e : Nat, 1 ≤ e ∧ e ≤ d ∧ isWeekendB y m (e : Int) = false := by
        obtain ⟨e, h1, h2, h3⟩ := hex
        refine ⟨e, h1, ?_, h3⟩
        rcases Nat.lt_or_ge e (d + 1) with h | h
        · omega
        · exfalso
          have he : e = d + 1 := by omega
          rw [he] at h3
          have : ((d + 1 : Nat) : Int) = (d : Int) + 1 := by push_cast; ring
          rw [this] at h3
          rw [hw] at h3
          cases h3
      obtain ⟨g1, g2, g3⟩ := ih hex'
      refine ⟨g1, g2, ?_⟩
      intro e he1 he2
      rcases Nat.lt_or_ge d e with h | h
      · have : e = d + 1 := by omega
        rw [this]
        have hc : ((d + 1 : Nat) : Int) = (d : Int) + 1 := by push_cast; ring
        rw [hc]
        exact hw
      · exact g3 e he1 h
    · rw [if_neg hw]
      refine ⟨by omega, ?_, ?_⟩
      · have hc : ((d + 1 : Nat) : Int) = (d : Int) + 1 := by push_cast; ring
        rw [hc]
        cases hb : isWeekendB y m ((d : Int) + 1)
        · rfl
        · exact absurd hb hw
      · intro e he1 he2
        omega

theorem lastBiz_month_spec (ty : Int) (tm : Nat) :
    1 ≤ lastBizWalk ty tm (monthLen ty tm) ∧
    lastBizWalk ty tm (monthLen ty tm) ≤ monthLen ty tm ∧
    isWeekendB ty tm ((lastBizWalk ty tm (monthLen ty tm) : Nat) : Int) = false ∧
    ∀ e : Nat, lastBizWalk ty tm (monthLen ty tm) < e → e ≤ monthLen ty tm →
      isWeekendB ty tm (e : Int) = true := by
  have hex := exists_weekday ty tm (monthLen ty tm) (by have := monthLen_ge ty tm; omega)
  obtain ⟨g1, g2, g3⟩ := lastBizWalk_spec ty tm (monthLen ty tm) hex
  exact ⟨g1, lastBizWalk_le ty tm (monthLen ty tm), g2, g3⟩

/-- C7: the `SHSIGNDate` derived from a parsed `cashin` date targets the
same month when the day-of-month is strictly before the 15th and the next
month otherwise, with December rolling over to January of the next year; the
resulting day is the last business day of the target month: it is a day of
that month that is not a Saturday or Sunday, and every later day of the
month is a Saturday or Sunday (the code finds it by walking backward from
the calendar month end).  The second part connects the raw `cashin` string
to the date computation. -/
theorem theorem_C7_shsign_date :
    (∀ y m0 d : Int, 0 ≤ m0 → m0 ≤ 11 → 1 ≤ d → d ≤ 31 →
      ((d < 15 → (shsignDate y m0 d).1 = y ∧ (shsignDate y m0 d).2.1 = m0) ∧
       (15 ≤ d → (m0 = 11 → (shsignDate y m0 d).1 = y + 1 ∧ (shsignDate y m0 d).2.1 = 0) ∧
                 (m0 < 11 → (shsignDate y m0 d).1 = y ∧ (shsignDate y m0 d).2.1 = m0 + 1))) ∧
      (1 ≤ (shsignDate y m0 d).2.2 ∧
       (shsignDate y m0 d).2.2 ≤
         monthLen (shsignDate y m0 d).1 (shsignDate y m0 d).2.1.toNat ∧
       isWeekendB (shsignDate y m0 d).1 (shsignDate y m0 d).2.1.toNat
         ((shsignDate y m0 d).2.2 : Int) = false ∧
       ∀ e : Nat, (shsignDate y m0 d).2.2 < e →
         e ≤ monthLen (shsignDate y m0 d).1 (shsignDate y m0 d).2.1.toNat →
         isWeekendB (shsignDate y m0 d).1 (shsignDate y m0 d).2.1.toNat (e : Int) = true)) ∧
    (∀ (s : String) (py pm pd : Int), parseCashinParts s = some (py, pm, pd) →
      shsignFromCashin s = some (shsignDate py pm pd)) := by
  constructor
  · intro y m0 d hm0 hm11 hd1 hd31
    constructor
    · constructor
      · intro h15
        simp only [shsignDate, shsignTarget]
        rw [if_pos h15, if_neg (show ¬(11 : Int) < m0 by omega)]
        exact ⟨rfl, rfl⟩
      · intro h15
        constructor
        · intro h11
          subst h11
          simp only [shsignDate, shsignTarget]
          rw [if_neg (show ¬d < 15 by omega),
            if_pos (show (11 : Int) < 11 + 1 by norm_num)]
          exact ⟨rfl, rfl⟩
        · intro h11
          simp only [shsignDate, shsignTarget]
          rw [if_neg (show ¬d < 15 by omega),
            if_neg (show ¬(11 : Int) < m0 + 1 by omega)]
          exact ⟨rfl, rfl⟩
    · have hs := lastBiz_month_spec (shsignTarget y m0 d).1 (shsignTarget y m0 d).2.toNat
      simp only [shsignDate]
      exact ⟨hs.1, hs.2.1, hs.2.2.1, hs.2.2.2⟩
  · intro s py pm pd hp
    unfold shsignFromCashin
    rw [hp]
    rfl

/-- Closed instance of `theorem_C7_shsign_date`: for `cashin = 2026-01-10`
(day 10, before the 15th) the target is January 2026 and the last business
day is the 30th (January 31st, 2026 is a Saturday). -/
theorem theorem_C7_witness :
    (shsignDate 2026 0 10).1 = 2026 ∧ (shsignDate 2026 0 10).2.1 = 0 ∧
    shsignFromCashin "2026-01-10" = some (shsignDate 2026 0 10) ∧
    shsignDate 2026 0 10 = (2026, 0, 30) := by
  have h := theorem_C7_shsign_date
  have h1 := (h.1 2026 0 10 (by norm_num) (by norm_num) (by norm_num) (by norm_num)).1.1
    (by norm_num)
  exact ⟨h1.1, h1.2, h.2 "2026-01-10" 2026 0 10 (by decide), by decide⟩

theorem getKey_step1_ne (m : VarMap) (k : String) (h : k ≠ "Founder1Share") :
    getKey k (founderShareStep1 m) = getKey k m := by
  unfold founderShareStep1
  split
  · split
    · exact getKey_setKey_ne _ _ (Ne.symm h)
    · rfl
  · rfl

theorem getKey_stepI_ne (i : Nat) (m : VarMap) (k : String) (h : k ≠ fShareKey i) :
    getKey k (founderShareStepI i m) = getKey k m := by
  unfold founderShareStepI
  split
  · split
    · exact getKey_setKey_ne _ _ (Ne.symm h)
    · rfl
  · rfl

theorem getKey_stepFold_ne (l : List Nat) (m : VarMap) (k : String)
    (h : ∀ j ∈ l, k ≠ fShareKey j) :
    getKey k (l.foldl (fun m i => founderShareStepI i m) m) = getKey k m := by
  induction l generalizing m with
  | nil => rfl
  | cons j tl ih =>
    simp only [List.foldl_cons]
    rw [ih _ fun j' hj' => h j' (List.mem_cons_of_mem j hj'),
      getKey_stepI_ne j m k (h j (List.mem_cons_self j tl))]

theorem varTruthy_eq_of_getKey {m₁ m₂ : VarMap} {k : String}
    (h : getKey k m₁ = getKey k m₂) : varTruthy m₁ k = varTruthy m₂ k := by
  unfold varTruthy
  rw [h]

theorem founderCashNum_congr {i : Nat} {m₁ m₂ : VarMap}
    (h : getKey (fCashKey i) m₁ = getKey (fCashKey i) m₂) :
    founderCashNum i m₁ = founderCashNum i m₂ := by
  unfold founderCashNum
  rw [h]

theorem fmvNum_congr {m₁ m₂ : VarMap}
    (h : getKey "FMV" m₁ = getKey "FMV" m₂) : fmvNum m₁ = fmvNum m₂ := by
  unfold fmvNum
  rw [h]

theorem getKey_stepI_hit (i : Nat) (m : VarMap)
    (h1 : varTruthy m (fShareKey i) = false) (h2 : varTruthy m (fCashKey i) = true)
    (h3 : varTruthy m "FMV" = true)
    (h4 : (founderCashNum i m).isNaNB = false)
    (h5 : (fmvNum m).isNaNB = false)
    (h6 : JNum.eqB (fmvNum m) (JNum.fin 0) = false)
    (h7 : JNum.ltB (JNum.fin 0) (founderCashNum i m) = true) :
    getKey (fShareKey i) (founderShareStepI i m) =
      some (formatNumberWithCommaNum (JNum.div (founderCashNum i m) (fmvNum m))) := by
  unfold founderShareStepI
  rw [if_pos (by simp [h1, h2, h3]), if_pos (by simp [h4, h5, h6, h7]),
    getKey_setKey_same]

theorem getKey_step1_hit (m : VarMap)
    (h1 : varTruthy m "Founder1Share" = false) (h2 : varTruthy m "Founder1Cash" = true)
    (h3 : varTruthy m "FMV" = true)
    (h4 : (founderCashNum 1 m).isNaNB = false)
    (h5 : (fmvNum m).isNaNB = false)
    (h6 : JNum.eqB (fmvNum m) (JNum.fin 0) = false) :
    getKey "Founder1Share" (founderShareStep1 m) =
      some (formatNumberWithCommaNum (JNum.div (founderCashNum 1 m) (fmvNum m))) := by
  unfold founderShareStep1
  rw [if_pos (by simp [h1, h2, h3]), if_pos (by simp [h4, h5, h6]),
    getKey_setKey_same]

theorem hit_through_chain (i : Nat) (pre : List Nat) (m : VarMap)
    (hpre : ∀ j ∈ pre, fShareKey i ≠ fShareKey j ∧ fCashKey i ≠ fShareKey j ∧
      ("FMV" : String) ≠ fShareKey j)
    (hpre1 : fShareKey i ≠ "Founder1Share" ∧ fCashKey i ≠ "Founder1Share" ∧
      ("FMV" : String) ≠ "Founder1Share")
    (h1 : varTruthy m (fShareKey i) = false) (h2 : varTruthy m (fCashKey i) = true)
    (h3 : varTruthy m "FMV" = true)
    (h4 : (founderCashNum i m).isNaNB = false)
    (h5 : (fmvNum m).isNaNB = false)
    (h6 : JNum.eqB (fmvNum m) (JNum.fin 0) = false)
    (h7 : JNum.ltB (JNum.fin 0) (founderCashNum i m) = true) :
    getKey (fShareKey i)
      (founderShareStepI i
        (pre.foldl (fun m j => founderShareStepI j m) (founderShareStep1 m))) =
      some (formatNumberWithCommaNum (JNum.div (founderCashNum i m) (fmvNum m))) := by
  have e1 : getKey (fShareKey i)
      (pre.foldl (fun m j => founderShareStepI j m) (founderShareStep1 m)) =
      getKey (fShareKey i) m := by
    rw [getKey_stepFold_ne pre _ _ fun j hj => (hpre j hj).1,
      getKey_step1_ne _ _ hpre1.1]
  have e2 : getKey (fCashKey i)
      (pre.foldl (fun m j => founderShareStepI j m) (founderShareStep1 m)) =
      getKey (fCashKey i) m := by
    rw [getKey_stepFold_ne pre _ _ fun j hj => (hpre j hj).2.1,
      getKey_step1_ne _ _ hpre1.2.1]
  have e3 : getKey "FMV"
      (pre.foldl (fun m j => founderShareStepI j m) (founderShareStep1 m)) =
      getKey "FMV" m := by
    rw [getKey_stepFold_ne pre _ _ fun j hj => (hpre j hj).2.2,
      getKey_step1_ne _ _ hpre1.2.2]
  have ec : founderCashNum i
      (pre.foldl (fun m j => founderShareStepI j m) (founderShareStep1 m)) =
      founderCashNum i m := founderCashNum_congr e2
  have ef : fmvNum
      (pre.foldl (fun m j => founderShareStepI j m) (founderShareStep1 m)) =
      fmvNum m := fmvNum_congr e3
  have hh := getKey_stepI_hit i
      (pre.foldl (fun m j => founderShareStepI j m) (founderShareStep1 m))
      ((varTruthy_eq_of_getKey e1).trans h1)
      ((varTruthy_eq_of_getKey e2).trans h2)
      ((varTruthy_eq_of_getKey e3).trans h3)
      ((congrArg JNum.isNaNB ec).trans h4)
      ((congrArg JNum.isNaNB ef).trans h5)
      ((congrArg (fun x => JNum.eqB x (JNum.fin 0)) ef).trans h6)
      ((congrArg (fun x => JNum.ltB (JNum.fin 0) x) ec).trans h7)
  exact hh.trans (by rw [ec, ef])

/-- C6 counterexample: the claim says the fallback sets `Founder{i}Share` to
`cash / fairMarketValue` *floored to an integer*; the code divides without
flooring.  With `Founder1Cash = "5"` and `FMV = "2"` the code stores
`"2.5"`, while the floored value `⌊5/2⌋ = 5 fdiv 2` formats as `"2"`. -/
theorem theorem_C6_counterexample :
    getKey "Founder1Share" (founderShareFallback [("Founder1Cash", "5"), ("FMV", "2")]) =
      some "2.5" ∧
    formatNumberWithCommaNum (JNum.fin ⟨Int.fdiv 5 2, 1⟩) = "2" ∧
    ("2.5" : String) ≠ "2" := by
  refine ⟨by decide, by decide, by decide⟩

set_option maxHeartbeats 1600000 in
/-- C6 (amended): in steps 10/10b of `transformSurveyToVariables`, for a
founder `i` whose share was not already set (falsy) and whose cash and `FMV`
are present and parse, with `FMV ≠ 0`, the engine sets `Founder{i}Share` to
the comma-formatted *unfloored* quotient `cash / FMV`; founders 2–9
additionally require `cash > 0` (founder 1 does not).  `cashSum` is `'$'`
plus the comma-formatted sum of the `Founder{i}Cash` values and `shareSum`
the comma-formatted sum of the post-fallback `Founder{i}Share` values, both
over `i = 1..9`; the cash keys themselves are never modified. -/
theorem theorem_C6_amended :
    ∀ m : VarMap,
      (getKey "cashSum" (founderShareFallback m) =
        some ("$" ++ formatNumberWithCommaNum (totalFounderCash (founderShareSteps m))) ∧
       getKey "shareSum" (founderShareFallback m) =
        some (formatNumberWithCommaNum (totalFounderShare (founderShareSteps m)))) ∧
      (∀ i, 1 ≤ i → i ≤ 9 →
        getKey (fCashKey i) (founderShareFallback m) = getKey (fCashKey i) m) ∧
      (varTruthy m "Founder1Share" = false → varTruthy m "Founder1Cash" = true →
       varTruthy m "FMV" = true →
       (founderCashNum 1 m).isNaNB = false →
       (fmvNum m).isNaNB = false →
       JNum.eqB (fmvNum m) (JNum.fin 0) = false →
       getKey "Founder1Share" (founderShareFallback m) =
         some (formatNumberWithCommaNum
           (JNum.div (founderCashNum 1 m) (fmvNum m)))) ∧
      (∀ i, 2 ≤ i → i ≤ 9 →
       varTruthy m (fShareKey i) = false → varTruthy m (fCashKey i) = true →
       varTruthy m "FMV" = true →
       (founderCashNum i m).isNaNB = false →
       (fmvNum m).isNaNB = false →
       JNum.eqB (fmvNum m) (JNum.fin 0) = false →
       JNum.ltB (JNum.fin 0) (founderCashNum i m) = true →
       getKey (fShareKey i) (founderShareFallback m) =
         some (formatNumberWithCommaNum
           (JNum.div (founderCashNum i m) (fmvNum m)))) := by
  intro m
  refine ⟨⟨?_, ?_⟩, ?_, ?_, ?_⟩
  · simp only [founderShareFallback, founderShareSteps, List.foldl_cons, List.foldl_nil]
    repeat rw [getKey_setKey_ne _ _ (by decide)]
    rw [getKey_setKey_same]
  · simp only [founderShareFallback, founderShareSteps, List.foldl_cons, List.foldl_nil]
    repeat rw [getKey_setKey_ne _ _ (by decide)]
    rw [getKey_setKey_same]
  · intro i hi1 hi9
    interval_cases i <;>
      · simp only [founderShareFallback, List.foldl_cons, List.foldl_nil]
        repeat rw [getKey_setKey_ne _ _ (by decide)]
        repeat rw [getKey_stepI_ne _ _ _ (by decide)]
        rw [getKey_step1_ne _ _ (by decide)]
  · intro h1 h2 h3 h4 h5 h6
    simp only [founderShareFallback, List.foldl_cons, List.foldl_nil]
    repeat rw [getKey_setKey_ne _ _ (by decide)]
    repeat rw [getKey_stepI_ne _ _ _ (by decide)]
    exact getKey_step1_hit m h1 h2 h3 h4 h5 h6
  · intro i hi2 hi9 h1 h2 h3 h4 h5 h6 h7
    interval_cases i
    · simp only [founderShareFallback, List.foldl_cons, List.foldl_nil]
      repeat rw [getKey_setKey_ne _ _ (by decide)]
      repeat rw [getKey_stepI_ne _ _ _ (by decide)]
      exact hit_through_chain 2 [] m (by decide) (by decide) h1 h2 h3 h4 h5 h6 h7
    · simp only [founderShareFallback, List.foldl_cons, List.foldl_nil]
      repeat rw [getKey_setKey_ne _ _ (by decide)]
      repeat rw [getKey_stepI_ne _ _ _ (by decide)]
      exact hit_through_chain 3 [2] m (by decide) (by decide) h1 h2 h3 h4 h5 h6 h7
    · simp only [founderShareFallback, List.foldl_cons, List.foldl_nil]
      repeat rw [getKey_setKey_ne _ _ (by decide)]
      repeat rw [getKey_stepI_ne _ _ _ (by decide)]
      exact hit_through_chain 4 [2, 3] m (by decide) (by decide) h1 h2 h3 h4 h5 h6 h7
    · simp only [founderShareFallback, List.foldl_cons, List.foldl_nil]
      repeat rw [getKey_setKey_ne _ _ (by decide)]
      repeat rw [getKey_stepI_ne _ _ _ (by decide)]
      exact hit_through_chain 5 [2, 3, 4] m (by decide) (by decide) h1 h2 h3 h4 h5 h6 h7
    · simp only [founderShareFallback, List.foldl_cons, List.foldl_nil]
      repeat rw [getKey_setKey_ne _ _ (by decide)]
      repeat rw [getKey_stepI_ne _ _ _ (by decide)]
      exact hit_through_chain 6 [2, 3, 4, 5] m (by decide) (by decide) h1 h2 h3 h4 h5 h6 h7
    · simp only [founderShareFallback, List.foldl_cons, List.foldl_nil]
      repeat rw [getKey_setKey_ne _ _ (by decide)]
      repeat rw [getKey_stepI_ne _ _ _ (by decide)]
      exact hit_through_chain 7 [2, 3, 4, 5, 6] m (by decide) (by decide) h1 h2 h3 h4 h5 h6 h7
    · simp only [founderShareFallback, List.foldl_cons, List.foldl_nil]
      repeat rw [getKey_setKey_ne _ _ (by decide)]
      repeat rw [getKey_stepI_ne _ _ _ (by decide)]
      exact hit_through_chain 8 [2, 3, 4, 5, 6, 7] m (by decide) (by decide)
        h1 h2 h3 h4 h5 h6 h7
    · simp only [founderShareFallback, List.foldl_cons, List.foldl_nil]
      repeat rw [getKey_setKey_ne _ _ (by decide)]
      exact hit_through_chain 9 [2, 3, 4, 5, 6, 7, 8] m (by decide) (by decide)
        h1 h2 h3 h4 h5 h6 h7

/-- Closed instance of `theorem_C6_amended`: `Founder2Cash = "1000000"`,
`FMV = "0.10"` produces `Founder2Share = "10,000,000"`. -/
theorem theorem_C6_witness :
    getKey "Founder2Share"
      (founderShareFallback [("Founder2Cash", "1000000"), ("FMV", "0.10")]) =
      some "10,000,000" := by
  have h := ((theorem_C6_amended [("Founder2Cash", "1000000"), ("FMV", "0.10")]).2.2.2
    2 (by norm_num) (by norm_num) (by decide) (by decide) (by decide) (by decide)
    (by decide) (by decide) (by decide))
  rw [show fShareKey 2 = "Founder2Share" from by decide] at h
  rw [h]
  decide

end DocGen
